import Mathlib

/-!
Verification of the Pigtail Device Tracker core (src/src/DeviceTracker.cpp and
the entity model header) against its natural-language specification.

Modelling conventions, used throughout:
* C `float` / `double` arithmetic is idealised as real-number arithmetic (`ℝ`);
  `log1pf x` is `Real.log (1 + x)`.
* Machine integers are `Nat` (unsigned) or `Int` (signed).  Timestamps are
  monotonic seconds since boot, so `uint32` differences `a - b` always have
  `b ≤ a` in reachable states and are modelled by truncated `Nat` subtraction.
  Where a `uint16`/`uint32` cast is explicit in the source (`(uint16_t)(maxIdx+1)`,
  the `UINT32_MAX` eviction sentinel) the wrap/sentinel is modelled explicitly.
* The fixed-capacity slot arrays `g_tracks[MAX_TRACKS]` / `g_anchors[MAX_ANCHORS]`
  are modelled as lists of slots; the linear scans of the source become scans
  over the list in index order.
* 6-byte MAC addresses are `List Nat` of byte values; C strings are `List Nat`
  of character codes.
* The `EntityFlags` bitset (`HasGeo`, `Watching`) is modelled as two `Bool`
  fields.  The OUI vendor lookup (`GetVendor`) is orthogonal to every property
  below and its field is omitted from the slot records.
-/

namespace Pigtail

/-! ## Tuning constants (DeviceTracker.cpp lines 23-52) -/

def WINDOW_SEC : Nat := 10
def ENV_WINDOW_SEC : Nat := 30
def TRACK_IDLE_SEC_WIFI : Nat := 15 * 60
def TRACK_IDLE_SEC_BLE : Nat := 20 * 60
def ANCHOR_IDLE_SEC : Nat := 10 * 60
def RSSI_NEAR_DBM : Int := -65
def RSSI_MID_DBM : Int := -80
def T_CAP_MIN : ℝ := 30
def RSSI_DEV_CAP : ℝ := 10
def CROWD_LO : ℝ := 5
def CROWD_HI : ℝ := 40
def FP_SIMILARITY_MIN : ℝ := 0.50
def FP_TOP_N : Nat := 8

/-! ## Numeric helpers -/

/-- Source: `clamp01(float x) { return x < 0 ? 0 : (x > 1 ? 1 : x); }` -/
noncomputable def clamp01 (x : ℝ) : ℝ :=
  if x < 0 then 0 else if x > 1 then 1 else x

/-- Source: `rssi_bucket`: near = 2 if rssi ≥ −65, mid = 1 if rssi ≥ −80, else 0. -/
def rssi_bucket (rssi_dbm : Int) : Nat :=
  if rssi_dbm ≥ RSSI_NEAR_DBM then 2
  else if rssi_dbm ≥ RSSI_MID_DBM then 1
  else 0

/-! ## Enumerations (Track.h) -/

inductive TrackKind
  | WifiClient
  | BleAdv
deriving DecidableEq, Repr

inductive EntityKind
  | WifiClient
  | BleAdv
  | WifiAp
deriving DecidableEq, Repr

inductive TrackerType
  | Unknown
  | AppleAirPods
  | AppleAirTag
  | AppleFindMy
  | Chipolo
  | GoogleFindHub
  | PebbleBee
  | SmartThingsFind
  | SmartThingsTracker
  | Tile
deriving DecidableEq, Repr

inductive GoogleFmnManufacturer
  | Unknown
  | PebbleBee
  | Chipolo
  | Eufy
  | Motorola
  | Jio
  | RollingSquare
deriving DecidableEq, Repr

inductive SamsungTrackerSubtype
  | Unknown
  | SmartTag1
  | SmartTag1Plus
  | SmartTag2
  | Solum
deriving DecidableEq, Repr

structure TrackerInfo where
  type : TrackerType := .Unknown
  confidence : Nat := 0
  google_mfr : GoogleFmnManufacturer := .Unknown
  samsung_subtype : SamsungTrackerSubtype := .Unknown
deriving DecidableEq, Repr

/-! ## Slot records (Track.h `Track`, `Anchor`) -/

/-- Model of `struct Track` (Track.h).  Field defaults mirror the C++
member initialisers; `watching`/`has_geo` model the `EntityFlags` bits.
(The C++ default `TrackKind kind{}` zero-initialises to an out-of-range
enum value that is never read while the slot is free; we use `WifiClient`.) -/
structure Track where
  in_use : Bool := false
  kind : TrackKind := .WifiClient
  addr : List Nat := []
  watching : Bool := false
  has_geo : Bool := false
  index : Nat := 0
  first_seen_s : Nat := 0
  last_seen_s : Nat := 0
  last_window : Nat := 0
  seen_windows : Nat := 0
  near_windows : Nat := 0
  ema_rssi : ℝ := -100
  ema_abs_dev : ℝ := 0
  last_segment_id : Nat := 0
  env_hits : Nat := 0
  crowd_ema : ℝ := 0
  last_geo_s : Nat := 0
  last_lat : ℝ := 0
  last_lon : ℝ := 0
  tracker_type : TrackerType := .Unknown
  tracker_google_mfr : GoogleFmnManufacturer := .Unknown
  tracker_samsung_subtype : SamsungTrackerSubtype := .Unknown
  tracker_confidence : Nat := 0

/-- Model of `struct Anchor` (Track.h). -/
structure Anchor where
  in_use : Bool := false
  addr : List Nat := []
  watching : Bool := false
  has_geo : Bool := false
  ssid : List Nat := []
  index : Nat := 0
  last_rssi : Int := -100
  last_seen_s : Nat := 0
  last_geo_s : Nat := 0
  last_lat : ℝ := 0
  last_lon : ℝ := 0
  best_rssi : Int := -127
  best_lat : ℝ := 0
  best_lon : ℝ := 0
  w_sum : ℝ := 0
  w_lat : ℝ := 0
  w_lon : ℝ := 0

/-! ## Scoring engine (DeviceTracker.cpp `score_track`, lines 192-213)

`score_track` reads the global `g_move_segments`; the model passes it as the
explicit argument `ms`. -/

/-- Source translation of `score_track(const Track& t, float stationary_ratio)`;
`sr` is the stationary ratio argument. -/
noncomputable def score_track (t : Track) (ms : Nat) (sr : ℝ) : ℝ :=
  let T_min : ℝ := ((t.last_seen_s - t.first_seen_s : Nat) : ℝ) / 60
  let P : ℝ := 30 * clamp01 (Real.log (1 + T_min) / Real.log (1 + T_CAP_MIN))
  let f_near : ℝ :=
    if t.seen_windows > 0 then (t.near_windows : ℝ) / (t.seen_windows : ℝ) else 0
  let stability : ℝ := clamp01 (1 - t.ema_abs_dev / RSSI_DEV_CAP)
  let R : ℝ := 25 * clamp01 (0.7 * f_near + 0.3 * stability)
  let move_segments : ℝ := ((max 1 ms : Nat) : ℝ)
  let coverage : ℝ := (t.env_hits : ℝ) / move_segments
  let M : ℝ := 35 * clamp01 coverage
  let crowd_norm : ℝ := clamp01 ((t.crowd_ema - CROWD_LO) / (CROWD_HI - CROWD_LO))
  let C : ℝ := -25 * crowd_norm
  let I : ℝ := -20 * clamp01 sr
  let S : ℝ := P + R + M + C + I
  if S < 0 then 0 else if S > 100 then 100 else S

/-- Modelled from the spec (§4.5): `clamp(x, lo, hi)`. -/
noncomputable def clamp (lo hi x : ℝ) : ℝ := max lo (min hi x)

/-- Modelled from the spec (§4.5, and the wording of the claim): the scoring
formula `clamp(P + R + M + C + I, 0, 100)` with
`P = 30·clamp01(ln(1+T_min)/ln(1+30))`, `T_min = (last_seen − first_seen)/60`,
`R = 25·clamp01(0.7·f_near + 0.3·stability)`, `f_near = near/seen` (0 when
`seen = 0`), `stability = clamp01(1 − ema_abs_dev/10)`,
`M = 35·clamp01(env_hits / max(1, move_segments))`,
`C = −25·clamp01((crowd_ema − 5)/35)`, `I = −20·clamp01(stationary_ratio)`. -/
noncomputable def scoreSpec (t : Track) (ms : Nat) (sr : ℝ) : ℝ :=
  let T_min : ℝ := ((t.last_seen_s - t.first_seen_s : Nat) : ℝ) / 60
  let P : ℝ := 30 * clamp01 (Real.log (1 + T_min) / Real.log (1 + 30))
  let f_near : ℝ :=
    if t.seen_windows > 0 then (t.near_windows : ℝ) / (t.seen_windows : ℝ) else 0
  let stability : ℝ := clamp01 (1 - t.ema_abs_dev / 10)
  let R : ℝ := 25 * clamp01 (0.7 * f_near + 0.3 * stability)
  let M : ℝ := 35 * clamp01 ((t.env_hits : ℝ) / ((max 1 ms : Nat) : ℝ))
  let C : ℝ := -25 * clamp01 ((t.crowd_ema - 5) / 35)
  let I : ℝ := -20 * clamp01 sr
  clamp 0 100 (P + R + M + C + I)

/-! ## Generic slot-array scans

The source walks the fixed arrays with `for (int i = 0; ...)` loops.  The
three scan shapes (first match, first free, argmin-eviction) are modelled by
the two generic scans below. -/

/-- Index of the first element of `l` satisfying `p` (the first loop hit). -/
def firstIdx {α : Type} (p : α → Bool) : List α → Option Nat
  | [] => none
  | x :: xs => if p x then some 0 else (firstIdx p xs).map (fun i => i + 1)

/-- The eviction scan of `find_or_alloc_*` (DeviceTracker.cpp lines 237-248 /
284-295): walk the slots keeping the index of the in-use, non-watched slot
with the (strictly) smallest `last_seen_s` seen so far.  `good` is the
"in-use and not watched" test, `key` is `last_seen_s`; `ev`/`oldest` are the
accumulator (`ev = -1` is `none`, `oldest` starts at `UINT32_MAX`). -/
def evictGo {α : Type} (good : α → Bool) (key : α → Nat) :
    List α → Nat → Option Nat → Nat → Option Nat × Nat
  | [], _, ev, oldest => (ev, oldest)
  | x :: xs, i, ev, oldest =>
    if good x && decide (key x < oldest) then
      evictGo good key xs (i + 1) (some i) (key x)
    else
      evictGo good key xs (i + 1) ev oldest

/-- Source: the full eviction scan, starting from `ev = -1`, `oldest = UINT32_MAX`. -/
def evictIdx {α : Type} (good : α → Bool) (key : α → Nat) (l : List α) : Option Nat :=
  (evictGo good key l 0 none (2 ^ 32 - 1)).1

/-! ## Environment fingerprints (Track.h `FpItem`, `EnvFingerprint`) -/

structure FpItem where
  addr : List Nat
  bucket : Nat
deriving DecidableEq, Repr

/-- Model of `EnvFingerprint`: the C++ fixed array `items[FP_TOP_N]` plus
`count` becomes the list of the `count` filled items. -/
structure EnvFingerprint where
  items : List FpItem := []
deriving DecidableEq, Repr

def EnvFingerprint.count (fp : EnvFingerprint) : Nat := fp.items.length

/-! ## Slot allocation (DeviceTracker.cpp `find_or_alloc_track` lines 215-263,
`find_or_alloc_anchor` lines 265-307) -/

/-- Slot initialisation performed on a free or evicted track slot
(`t = Track{}` followed by the field assignments of the source). -/
def initTrack (kind : TrackKind) (addr : List Nat) (ts idx seg : Nat) : Track :=
  { in_use := true, kind := kind, addr := addr, index := idx,
    first_seen_s := ts, last_seen_s := ts, last_segment_id := seg, env_hits := 1 }

/-- Slot initialisation performed on a free or evicted anchor slot. -/
def initAnchor (addr : List Nat) (ts idx : Nat) : Anchor :=
  { in_use := true, addr := addr, index := idx, last_seen_s := ts, last_rssi := -100 }

/-- The first-loop match test: in-use slot with equal kind and address. -/
def trackMatches (kind : TrackKind) (addr : List Nat) (t : Track) : Bool :=
  t.in_use && decide (t.kind = kind) && decide (t.addr = addr)

/-- Eviction candidate test: in-use and not watched. -/
def trackEvictable (t : Track) : Bool := t.in_use && !t.watching

def anchorMatches (addr : List Nat) (a : Anchor) : Bool :=
  a.in_use && decide (a.addr = addr)

def anchorEvictable (a : Anchor) : Bool := a.in_use && !a.watching

/-- Result of `find_or_alloc_track`: the updated table, the updated
`g_next_index`, and the selected slot (`none` models the `nullptr` return). -/
structure TrackAlloc where
  tracks : List Track
  next_index : Nat
  slot : Option Nat

structure AnchorAlloc where
  anchors : List Anchor
  next_index : Nat
  slot : Option Nat

/-- Source translation of `find_or_alloc_track(kind, addr, ts_s)`:
scan for a matching in-use slot; else the first free slot, initialised; else
evict the in-use non-watched slot with the smallest `last_seen_s`
(`t.index = g_next_index++` is the `uint16` post-increment). -/
def find_or_alloc_track (tracks : List Track) (ni seg : Nat)
    (kind : TrackKind) (addr : List Nat) (ts : Nat) : TrackAlloc :=
  match firstIdx (trackMatches kind addr) tracks with
  | some i => ⟨tracks, ni, some i⟩
  | none =>
    match firstIdx (fun t => !t.in_use) tracks with
    | some i => ⟨tracks.set i (initTrack kind addr ts ni seg), (ni + 1) % 65536, some i⟩
    | none =>
      match evictIdx trackEvictable (fun t => t.last_seen_s) tracks with
      | some i => ⟨tracks.set i (initTrack kind addr ts ni seg), (ni + 1) % 65536, some i⟩
      | none => ⟨tracks, ni, none⟩

/-- Source translation of `find_or_alloc_anchor(bssid, ts_s)`. -/
def find_or_alloc_anchor (anchors : List Anchor) (ni : Nat)
    (addr : List Nat) (ts : Nat) : AnchorAlloc :=
  match firstIdx (anchorMatches addr) anchors with
  | some i => ⟨anchors, ni, some i⟩
  | none =>
    match firstIdx (fun a => !a.in_use) anchors with
    | some i => ⟨anchors.set i (initAnchor addr ts ni), (ni + 1) % 65536, some i⟩
    | none =>
      match evictIdx anchorEvictable (fun a => a.last_seen_s) anchors with
      | some i => ⟨anchors.set i (initAnchor addr ts ni), (ni + 1) % 65536, some i⟩
      | none => ⟨anchors, ni, none⟩

/-! ## Idle expiry (DeviceTracker.cpp `expire_tables`, lines 447-472) -/

/-- Track half of `expire_tables(ts_s)`. -/
def expireTracks (tracks : List Track) (ts : Nat) : List Track :=
  tracks.map fun t =>
    if t.in_use = false then t
    else if t.watching = true then t
    else
      let idle := ts - t.last_seen_s
      let limit := if t.kind = .WifiClient then TRACK_IDLE_SEC_WIFI else TRACK_IDLE_SEC_BLE
      if idle > limit then { t with in_use := false } else t

/-- Anchor half of `expire_tables(ts_s)`. -/
def expireAnchors (anchors : List Anchor) (ts : Nat) : List Anchor :=
  anchors.map fun a =>
    if a.in_use = false then a
    else if a.watching = true then a
    else if ts - a.last_seen_s > ANCHOR_IDLE_SEC then { a with in_use := false } else a

/-! ## Global tracker state and `DeviceTracker::reset` (lines 1041-1108) -/

/-- The file-scope mutable state of DeviceTracker.cpp touched by the
verified operations (tables, segmentation, crowd window, GNSS fix). -/
structure TrackerState where
  tracks : List Track
  anchors : List Anchor
  next_index : Nat
  last_fp : EnvFingerprint
  last_env_tick_s : Nat
  segment_id : Nat
  move_segments : Nat
  current_window : Nat
  window_unique_hits : Nat
  gps_valid : Bool
  gps_lat : ℝ
  gps_lon : ℝ
  gps_anchor_valid : Bool
  gps_anchor_lat : ℝ
  gps_anchor_lon : ℝ
  last_gps_seg_s : Nat

/-- The `maxIdx` recomputation shared by `reset` and `readWatchlist`:
maximum index over all in-use slots (0 when there are none). -/
def maxInUseIdx (tracks : List Track) (anchors : List Anchor) : Nat :=
  let m1 := tracks.foldl (fun m t => if t.in_use = true then max m t.index else m) 0
  anchors.foldl (fun m a => if a.in_use = true then max m a.index else m) m1

/-- The `g_next_index = (uint16_t)(maxIdx + 1); if (g_next_index == 0) g_next_index = 1;`
sequence. -/
def nextIndexAfter (tracks : List Track) (anchors : List Anchor) : Nat :=
  let ni := (maxInUseIdx tracks anchors + 1) % 65536
  if ni = 0 then 1 else ni

/-- Source translation of `DeviceTracker::reset()` (the queue drain is not part
of the table state): clear every in-use non-watched slot in place, recompute
`g_next_index`, reset segmentation, crowd window and the GNSS anchor. -/
def reset (s : TrackerState) : TrackerState :=
  let tracks := s.tracks.map fun t =>
    if t.in_use = false then t
    else if t.watching = true then t
    else {}
  let anchors := s.anchors.map fun a =>
    if a.in_use = false then a
    else if a.watching = true then a
    else {}
  { s with
    tracks := tracks
    anchors := anchors
    next_index := nextIndexAfter tracks anchors
    last_fp := {}
    last_env_tick_s := 0
    segment_id := 1
    move_segments := 0
    current_window := 0
    window_unique_hits := 0
    gps_anchor_valid := false
    last_gps_seg_s := 0 }

/-! ## Per-observation update (DeviceTracker.cpp `update_track_from_obs`,
lines 309-334)

The source reads the globals `g_window_unique_hits` and `g_segment_id`;
the model passes them as `wuh` and `seg`. -/

noncomputable def update_track_from_obs (t : Track) (rssi_dbm : Int) (ts_s : Nat)
    (seg wuh : Nat) : Track :=
  let t1 := { t with last_seen_s := ts_s }
  let window := ts_s / WINDOW_SEC
  let t2 :=
    if t1.last_window ≠ window then
      { t1 with
        last_window := window
        seen_windows := t1.seen_windows + 1
        near_windows :=
          if RSSI_NEAR_DBM ≤ rssi_dbm then t1.near_windows + 1 else t1.near_windows
        crowd_ema := (1 - 0.1) * t1.crowd_ema + 0.1 * (wuh : ℝ) }
    else t1
  let prev := t2.ema_rssi
  let t3 := { t2 with ema_rssi := (1 - 0.2) * t2.ema_rssi + 0.2 * (rssi_dbm : ℝ) }
  let t4 := { t3 with ema_abs_dev := (1 - 0.2) * t3.ema_abs_dev + 0.2 * |(rssi_dbm : ℝ) - prev| }
  if t4.last_segment_id ≠ seg then
    { t4 with last_segment_id := seg, env_hits := t4.env_hits + 1 }
  else t4

/-! ## Fingerprint similarity and segmentation
(DeviceTracker.cpp `build_fingerprint` lines 336-360, `fp_similarity`
lines 362-389, `haversine_m` lines 391-401, `maybe_advance_segment`
lines 403-445) -/

/-- Source `find_bucket` lambda inside `fp_similarity`: bucket of the first
item of `fp` with the given address, if any. -/
def find_bucket (fp : EnvFingerprint) (addr : List Nat) : Option Nat :=
  (fp.items.find? (fun it => decide (it.addr = addr))).map (fun it => it.bucket)

/-- Source translation of `fp_similarity(a, b)`:
`uni = |a| + #{y ∈ b | y.addr ∉ a}`; `1.0` when `uni = 0`; otherwise
`clamp01(inter/uni + bonus/uni)` where `inter` counts the items of `a`
found in `b` by address and `bonus` adds `0.25` per shared address whose
bucket also matches. -/
noncomputable def fp_similarity (a b : EnvFingerprint) : ℝ :=
  let uni := a.count + b.items.countP (fun y => !(a.items.any (fun x => decide (x.addr = y.addr))))
  if uni = 0 then 1
  else
    let inter := a.items.countP (fun x => (find_bucket b x.addr).isSome)
    let bonus : ℝ := 0.25 * (a.items.countP (fun x => decide (find_bucket b x.addr = some x.bucket)) : ℝ)
    let j : ℝ := (inter : ℝ) / (uni : ℝ)
    clamp01 (j + bonus / (uni : ℝ))

/-- Source translation of `build_fingerprint(ts_s)`: the in-use anchors seen
within the last 60 s, sorted by descending `last_rssi`, truncated to
`FP_TOP_N`, each reduced to `(addr, rssi_bucket)`. -/
def build_fingerprint (anchors : List Anchor) (ts : Nat) : EnvFingerprint :=
  let tmp := anchors.filter (fun a => a.in_use && decide (ts - a.last_seen_s ≤ 60))
  let sorted := List.insertionSort (fun a b : Anchor => b.last_rssi ≤ a.last_rssi) tmp
  { items := (sorted.take FP_TOP_N).map (fun a => ⟨a.addr, rssi_bucket a.last_rssi⟩) }

def deg2rad (d : ℝ) : ℝ := d * 0.017453292519943295

/-- The C library `atan2(y, x)` (quadrant-correcting arctangent). -/
noncomputable def atan2 (y x : ℝ) : ℝ :=
  if 0 < x then Real.arctan (y / x)
  else if x < 0 ∧ 0 ≤ y then Real.arctan (y / x) + Real.pi
  else if x < 0 ∧ y < 0 then Real.arctan (y / x) - Real.pi
  else if x = 0 ∧ 0 < y then Real.pi / 2
  else if x = 0 ∧ y < 0 then -(Real.pi / 2)
  else 0

/-- Source translation of `haversine_m` (earth radius 6 371 000 m). -/
noncomputable def haversine_m (lat1 lon1 lat2 lon2 : ℝ) : ℝ :=
  let R : ℝ := 6371000
  let dLat := deg2rad (lat2 - lat1)
  let dLon := deg2rad (lon2 - lon1)
  let a := Real.sin (dLat / 2) * Real.sin (dLat / 2) +
    Real.cos (deg2rad lat1) * Real.cos (deg2rad lat2) *
      (Real.sin (dLon / 2) * Real.sin (dLon / 2))
  2 * R * atan2 (Real.sqrt a) (Real.sqrt (1 - a))

/-- Source translation of `maybe_advance_segment(ts_s)` acting on the global
state: GNSS mode when a fix is valid (anchor placement, then advance on
≥ 10 s and ≥ 50 m), else fingerprint mode every `ENV_WINDOW_SEC`. -/
noncomputable def maybe_advance_segment (s : TrackerState) (ts : Nat) : TrackerState :=
  if s.gps_valid = true then
    if s.gps_anchor_valid = false then
      { s with gps_anchor_valid := true, gps_anchor_lat := s.gps_lat,
               gps_anchor_lon := s.gps_lon, last_gps_seg_s := ts }
    else if 10 ≤ ts - s.last_gps_seg_s then
      if 50 ≤ haversine_m s.gps_anchor_lat s.gps_anchor_lon s.gps_lat s.gps_lon then
        { s with segment_id := s.segment_id + 1, move_segments := s.move_segments + 1,
                 gps_anchor_lat := s.gps_lat, gps_anchor_lon := s.gps_lon,
                 last_gps_seg_s := ts }
      else s
    else s
  else
    if s.last_env_tick_s = 0 then
      { s with last_env_tick_s := ts, last_fp := build_fingerprint s.anchors ts }
    else if ts - s.last_env_tick_s < ENV_WINDOW_SEC then s
    else
      let fp := build_fingerprint s.anchors ts
      if fp_similarity fp s.last_fp < FP_SIMILARITY_MIN then
        { s with last_env_tick_s := ts, segment_id := s.segment_id + 1,
                 move_segments := s.move_segments + 1, last_fp := fp }
      else { s with last_env_tick_s := ts, last_fp := fp }

/-! ## Snapshot builder (DeviceTracker.cpp `buildSnapshot`, lines 909-1001) -/

/-- Model of `struct EntityView` (Track.h). -/
structure EntityView where
  kind : EntityKind
  index : Nat
  addr : List Nat
  ssid : List Nat := []
  score : ℝ
  rssi : Int
  age_s : Nat
  last_seen_s : Nat
  env_hits : Nat := 0
  seen_windows : Nat := 0
  near_windows : Nat := 0
  crowd : ℝ := 0
  tracker_type : TrackerType := .Unknown
  tracker_google_mfr : GoogleFmnManufacturer := .Unknown
  tracker_samsung_subtype : SamsungTrackerSubtype := .Unknown
  tracker_confidence : Nat := 0
  watching : Bool := false
  has_geo : Bool := false
  lat : ℝ := 0
  lon : ℝ := 0

/-- The C library `lroundf` (round half away from zero). -/
noncomputable def lroundf (x : ℝ) : Int :=
  if x < 0 then -⌊-x + 1 / 2⌋ else ⌊x + 1 / 2⌋

/-- Anchor display geo: weighted centroid when `w_sum ≥ 3`, else best-pass
(shared by `buildSnapshot` and `writeWatchlist`). -/
noncomputable def anchorGeo (a : Anchor) : ℝ × ℝ :=
  if 3 ≤ a.w_sum then (a.w_lat / a.w_sum, a.w_lon / a.w_sum) else (a.best_lat, a.best_lon)

/-- The `EntityView` row built from an in-use track. -/
noncomputable def trackView (t : Track) (ms : Nat) (sr : ℝ) : EntityView :=
  { kind := match t.kind with
      | .WifiClient => EntityKind.WifiClient
      | .BleAdv => EntityKind.BleAdv
    index := t.index
    addr := t.addr
    score := score_track t ms sr
    rssi := lroundf t.ema_rssi
    age_s := t.last_seen_s - t.first_seen_s
    last_seen_s := t.last_seen_s
    env_hits := t.env_hits
    seen_windows := t.seen_windows
    near_windows := t.near_windows
    crowd := t.crowd_ema
    tracker_type := t.tracker_type
    tracker_google_mfr := t.tracker_google_mfr
    tracker_samsung_subtype := t.tracker_samsung_subtype
    tracker_confidence := t.tracker_confidence
    watching := t.watching
    has_geo := t.has_geo
    lat := if t.has_geo = true then t.last_lat else 0
    lon := if t.has_geo = true then t.last_lon else 0 }

/-- The `EntityView` row built from an in-use anchor (score fixed at 0). -/
noncomputable def anchorView (a : Anchor) (ts : Nat) : EntityView :=
  { kind := EntityKind.WifiAp
    index := a.index
    addr := a.addr
    ssid := a.ssid.take 32
    score := 0
    rssi := a.last_rssi
    age_s := ts - a.last_seen_s
    last_seen_s := a.last_seen_s
    watching := a.watching
    has_geo := a.has_geo
    lat := if a.has_geo = true then (anchorGeo a).1 else 0
    lon := if a.has_geo = true then (anchorGeo a).2 else 0 }

/-- The unsorted row array: every in-use track then every in-use anchor,
capped at `maxOut` (the `n < maxOut` loop guards). -/
noncomputable def snapshotRows (s : TrackerState) (maxOut ts : Nat) (sr : ℝ) : List EntityView :=
  ((s.tracks.filter (fun t => t.in_use)).map (fun t => trackView t s.move_segments sr) ++
    (s.anchors.filter (fun a => a.in_use)).map (fun a => anchorView a ts)).take maxOut

open Classical in
/-- Source translation of the `std::sort` comparator of `buildSnapshot`
("`a` is ordered strictly before `b`"): watched first, then score
descending, then rssi descending, then index ascending. -/
def snapBefore (x y : EntityView) : Prop :=
  if x.watching ≠ y.watching then x.watching = true
  else if x.score ≠ y.score then y.score < x.score
  else if x.rssi ≠ y.rssi then y.rssi < x.rssi
  else x.index < y.index

/-- The non-strict order induced by the comparator; `std::sort` output is
sorted with respect to it. -/
def snapLE (x y : EntityView) : Prop := ¬ snapBefore y x

open Classical in
/-- Source translation of `DeviceTracker::buildSnapshot`: the rows of
`snapshotRows`, sorted by the comparator. -/
noncomputable def buildSnapshot (s : TrackerState) (maxOut ts : Nat) (sr : ℝ) :
    List EntityView :=
  List.insertionSort snapLE (snapshotRows s maxOut ts sr)

/-- Modelled from the spec (§8 / the claim): rank of the `watched` flag in the
snapshot-order tuple (`true` above `false`). -/
def watchedRank (x : EntityView) : Nat := if x.watching = true then 1 else 0

/-- Modelled from the spec (the claim's order statement): the tuple
`(watched, score, rssi, −index)` of row `x` is lexicographically ≥ that
of row `y`. -/
def lexGE (x y : EntityView) : Prop :=
  watchedRank y < watchedRank x ∨
    (watchedRank x = watchedRank y ∧
      (y.score < x.score ∨
        (x.score = y.score ∧
          (y.rssi < x.rssi ∨
            (x.rssi = y.rssi ∧ -(y.index : Int) ≤ -(x.index : Int))))))

/-! ## BLE beacon classifier (MarkovNameGenerator.cpp source file,
`BleTracker::Inspect` lines 234-321 and helpers)

An advertisement is modelled by its 16-bit service-UUID list, optional
manufacturer data bytes and optional local name (byte codes). -/

structure Adv where
  services : List Nat
  mfg : Option (List Nat) := none
  name : Option (List Nat) := none

def strBytes (s : String) : List Nat := s.toList.map (fun c => c.toNat)

/-- Source `BleTracker::HasService`. -/
def hasService (dev : Adv) (uuid : Nat) : Bool := dev.services.contains uuid

/-- Source `BleTracker::TryGetAppleMfgPayload`: manufacturer data of at least
two bytes whose little-endian company id is 0x004C; the payload starts after
the company id. -/
def tryGetAppleMfgPayload (dev : Adv) : Option (List Nat) :=
  match dev.mfg with
  | none => none
  | some b =>
    if b.length < 2 then none
    else if b.getD 0 0 + 256 * b.getD 1 0 = 0x004C then some (b.drop 2)
    else none

def toLowerByte (c : Nat) : Nat := if 65 ≤ c ∧ c ≤ 90 then c + 32 else c

/-- Source `BleTracker::IContains` (case-insensitive substring search). -/
def iContains (hay needle : List Nat) : Bool :=
  if needle.isEmpty then true
  else
    (List.range (hay.length + 1)).any fun i =>
      decide (((hay.drop i).take needle.length).map toLowerByte = needle.map toLowerByte)

/-- Source `BleTracker::GuessGoogleMfrFromName`. -/
def GuessGoogleMfrFromName (name : List Nat) : GoogleFmnManufacturer :=
  if name.isEmpty then .Unknown
  else if iContains name (strBytes ("pebblebee")) then .PebbleBee
  else if iContains name (strBytes ("chipolo")) then .Chipolo
  else if iContains name (strBytes ("eufy")) then .Eufy
  else if iContains name (strBytes ("motorola")) then .Motorola
  else if iContains name (strBytes ("moto")) then .Motorola
  else if iContains name (strBytes ("jio")) then .Jio
  else if iContains name (strBytes ("rolling square")) then .RollingSquare
  else .Unknown

/-- Source `BleTracker::GuessSamsungSubtypeFromName`. -/
def GuessSamsungSubtypeFromName (name : List Nat) : SamsungTrackerSubtype :=
  if name.isEmpty then .Unknown
  else if iContains name (strBytes ("smarttag2")) || iContains name (strBytes ("smart tag2")) ||
      iContains name (strBytes ("smart tag 2")) then .SmartTag2
  else if iContains name (strBytes ("solum")) then .Solum
  else if iContains name (strBytes ("smarttag+")) || iContains name (strBytes ("smart tag+")) then
    .SmartTag1Plus
  else if iContains name (strBytes ("smarttag")) || iContains name (strBytes ("smart tag")) then
    .SmartTag1
  else .Unknown

/-- The non-Apple fallthrough at the end of `Inspect` (step 3): service
0xFE33 means Chipolo, otherwise Unknown. -/
def inspectTail (dev : Adv) : TrackerInfo :=
  if hasService dev 0xFE33 then { type := .Chipolo, confidence := 80 }
  else { type := .Unknown, confidence := 0 }

/-- Source translation of `BleTracker::Inspect` (fixed decision order,
first match wins). -/
def Inspect (dev : Adv) : TrackerInfo :=
  let name := dev.name.getD []
  if hasService dev 0xFEED then { type := .Tile, confidence := 95 }
  else if hasService dev 0xFD5A then
    { type := .SmartThingsTracker, confidence := 95,
      samsung_subtype := GuessSamsungSubtypeFromName name }
  else if hasService dev 0xFD69 then { type := .SmartThingsFind, confidence := 90 }
  else if hasService dev 0xFEAA then
    { type := .GoogleFindHub, confidence := 90,
      google_mfr := GuessGoogleMfrFromName name }
  else if hasService dev 0xFA25 then { type := .PebbleBee, confidence := 90 }
  else
    match tryGetAppleMfgPayload dev with
    | some ap =>
      if 2 ≤ ap.length ∧ ap.getD 0 0 = 0x12 ∧ ap.getD 1 0 = 0x19 then
        if 3 ≤ ap.length ∧ (ap.getD 2 0) &&& 0x18 = 0x18 then
          { type := .AppleAirPods, confidence := 85 }
        else if 3 ≤ ap.length ∧ (ap.getD 2 0) &&& 0x18 = 0x10 then
          if hasService dev 0xFE33 then { type := .AppleFindMy, confidence := 80 }
          else { type := .AppleAirTag, confidence := 75 }
        else { type := .AppleFindMy, confidence := 65 }
      else inspectTail dev
    | none => inspectTail dev

/-! ## Watchlist persistence (DeviceTracker.cpp `readWatchlist` lines
1110-1290, `writeWatchlist` lines 1332-1508)

The JSON layer is modelled structurally: a parsed document is `Option WDoc`
(`none` = unreadable/empty/invalid JSON), the `items` member is an optional
array and each element is `Option WItem` (`none` = not an object).
`double` values written with 8 fractional digits are modelled exactly by
`printDouble8`. -/

/-- Source `hexNibble` (returns −1 on failure, modelled as `none`). -/
def hexNibble (c : Nat) : Option Nat :=
  if 48 ≤ c ∧ c ≤ 57 then some (c - 48)
  else if 97 ≤ c ∧ c ≤ 102 then some (10 + (c - 97))
  else if 65 ≤ c ∧ c ≤ 70 then some (10 + (c - 65))
  else none

/-- One uppercase hex digit of `%02X` (value < 16 in every reachable call). -/
def hexDigitUpper (n : Nat) : Nat := if n < 10 then 48 + n else 65 + (n - 10)

/-- Source `macToString` via `snprintf("%02X:...")`: the 17-character code
list for a 6-byte address (empty, hence failing the length check, for a
list that is not 6 bytes). -/
def macToString (m : List Nat) : List Nat :=
  match m with
  | [b0, b1, b2, b3, b4, b5] =>
    [hexDigitUpper (b0 / 16), hexDigitUpper (b0 % 16), 58,
     hexDigitUpper (b1 / 16), hexDigitUpper (b1 % 16), 58,
     hexDigitUpper (b2 / 16), hexDigitUpper (b2 % 16), 58,
     hexDigitUpper (b3 / 16), hexDigitUpper (b3 % 16), 58,
     hexDigitUpper (b4 / 16), hexDigitUpper (b4 % 16), 58,
     hexDigitUpper (b5 / 16), hexDigitUpper (b5 % 16)]
  | _ => []

/-- C-string character read used by `parseMac` (`0` past the end models the
NUL terminator / empty remainder, which every check rejects). -/
def sGet (s : List Nat) (i : Nat) : Nat := s.getD i 0

def parseMacByte (s : List Nat) (i : Nat) : Option Nat :=
  match hexNibble (sGet s (3 * i)), hexNibble (sGet s (3 * i + 1)) with
  | some hi, some lo => some (16 * hi + lo)
  | _, _ => none

def macSepOk (s : List Nat) (i : Nat) : Bool :=
  decide (sGet s (3 * i + 2) = 58) || decide (sGet s (3 * i + 2) = 45)

/-- Source `parseMac("AA:BB:CC:DD:EE:FF")`: six hex byte pairs separated by
`':'` or `'-'` (the source interleaves the byte and separator checks; the
conjunction of the same checks is modelled). -/
def parseMac (s : List Nat) : Option (List Nat) :=
  match parseMacByte s 0, parseMacByte s 1, parseMacByte s 2,
      parseMacByte s 3, parseMacByte s 4, parseMacByte s 5 with
  | some b0, some b1, some b2, some b3, some b4, some b5 =>
    if macSepOk s 0 && macSepOk s 1 && macSepOk s 2 && macSepOk s 3 && macSepOk s 4 then
      some [b0, b1, b2, b3, b4, b5]
    else none
  | _, _, _, _, _, _ => none

def strWifiAp : List Nat := strBytes ("WifiAp")
def strWifiClient : List Nat := strBytes ("WifiClient")
def strBleAdv : List Nat := strBytes ("BleAdv")

/-- Source `kindToString`. -/
def kindToString (k : EntityKind) : List Nat :=
  match k with
  | .WifiAp => strWifiAp
  | .WifiClient => strWifiClient
  | .BleAdv => strBleAdv

/-- Source `parseKind`. -/
def parseKind (s : List Nat) : Option EntityKind :=
  if s = strWifiAp then some .WifiAp
  else if s = strWifiClient then some .WifiClient
  else if s = strBleAdv then some .BleAdv
  else none

/-- Source `ieq` (case-insensitive string equality). -/
def ieq (a b : List Nat) : Bool := decide (a.map toLowerByte = b.map toLowerByte)

/-- Source `BleTracker::TrackerTypeName`. -/
def TrackerTypeName (t : TrackerType) : List Nat :=
  match t with
  | .Unknown => strBytes ("Unknown")
  | .AppleAirPods => strBytes ("AirPods")
  | .AppleAirTag => strBytes ("AirTag")
  | .AppleFindMy => strBytes ("Find My")
  | .Chipolo => strBytes ("Chipolo")
  | .GoogleFindHub => strBytes ("Find Hub")
  | .PebbleBee => strBytes ("PebbleBee")
  | .SmartThingsFind => strBytes ("ST Find")
  | .SmartThingsTracker => strBytes ("ST Tracker")
  | .Tile => strBytes ("Tile")

/-- Source `BleTracker::ParseTrackerType`. -/
def ParseTrackerType (s : List Nat) : Option TrackerType :=
  if s.isEmpty then none
  else if ieq s (strBytes ("Unknown")) then some .Unknown
  else if ieq s (strBytes ("AirPods")) then some .AppleAirPods
  else if ieq s (strBytes ("AirTag")) then some .AppleAirTag
  else if ieq s (strBytes ("Find My")) then some .AppleFindMy
  else if ieq s (strBytes ("Chipolo")) then some .Chipolo
  else if ieq s (strBytes ("Find Hub")) then some .GoogleFindHub
  else if ieq s (strBytes ("PebbleBee")) then some .PebbleBee
  else if ieq s (strBytes ("Find")) then some .SmartThingsFind
  else if ieq s (strBytes ("Tracker")) then some .SmartThingsTracker
  else if ieq s (strBytes ("Tile")) then some .Tile
  else none

/-- Source `BleTracker::GoogleMfrName`. -/
def GoogleMfrName (m : GoogleFmnManufacturer) : List Nat :=
  match m with
  | .Unknown => strBytes ("Unknown")
  | .PebbleBee => strBytes ("PebbleBee")
  | .Chipolo => strBytes ("Chipolo")
  | .Eufy => strBytes ("Eufy")
  | .Motorola => strBytes ("Motorola")
  | .Jio => strBytes ("Jio")
  | .RollingSquare => strBytes ("Rolling Square")

/-- Source `BleTracker::ParseGoogleMfr`. -/
def ParseGoogleMfr (s : List Nat) : Option GoogleFmnManufacturer :=
  if s.isEmpty then none
  else if ieq s (strBytes ("Unknown")) then some .Unknown
  else if ieq s (strBytes ("PebbleBee")) then some .PebbleBee
  else if ieq s (strBytes ("Chipolo")) then some .Chipolo
  else if ieq s (strBytes ("Eufy")) then some .Eufy
  else if ieq s (strBytes ("Motorola")) then some .Motorola
  else if ieq s (strBytes ("Jio")) then some .Jio
  else if ieq s (strBytes ("Rolling Square")) then some .RollingSquare
  else none

/-- Source `BleTracker::SamsungSubtypeName`. -/
def SamsungSubtypeName (s : SamsungTrackerSubtype) : List Nat :=
  match s with
  | .Unknown => strBytes ("Unknown")
  | .SmartTag1 => strBytes ("SmartTag 1")
  | .SmartTag1Plus => strBytes ("SmartTag+")
  | .SmartTag2 => strBytes ("SmartTag 2")
  | .Solum => strBytes ("Solum SmartTag")

/-- Source `BleTracker::ParseSamsungSubtype`. -/
def ParseSamsungSubtype (s : List Nat) : Option SamsungTrackerSubtype :=
  if s.isEmpty then none
  else if ieq s (strBytes ("Unknown")) then some .Unknown
  else if ieq s (strBytes ("SmartTag 1")) then some .SmartTag1
  else if ieq s (strBytes ("SmartTag+")) then some .SmartTag1Plus
  else if ieq s (strBytes ("SmartTag 2")) then some .SmartTag2
  else if ieq s (strBytes ("Solum SmartTag")) then some .Solum
  else none

/-- `Print::print(double, 8)`: the decimal value actually written (round half
away from zero at 8 fractional digits). -/
noncomputable def printDouble8 (x : ℝ) : ℝ :=
  if x < 0 then -(((⌊-x * 10 ^ 8 + 1 / 2⌋ : ℤ) : ℝ) / 10 ^ 8)
  else ((⌊x * 10 ^ 8 + 1 / 2⌋ : ℤ) : ℝ) / 10 ^ 8

/-- One JSON item object of the watchlist document (absent members are
`none`). -/
structure WItem where
  kind : Option (List Nat) := none
  mac : Option (List Nat) := none
  ssid : Option (List Nat) := none
  lat : Option ℝ := none
  lon : Option ℝ := none
  tracker_type : Option (List Nat) := none
  tracker_google_mfr : Option (List Nat) := none
  tracker_samsung_subtype : Option (List Nat) := none
  tracker_confidence : Option Nat := none

/-- The parsed watchlist document: an optional `items` array whose elements
may fail the `as<JsonObject>` conversion (`none`). -/
structure WDoc where
  items : Option (List (Option WItem))

/-- The item written for a Watching anchor (JSON string escaping of the SSID
round-trips and is elided). -/
noncomputable def writeAnchorItem (a : Anchor) : WItem :=
  { kind := some strWifiAp
    mac := some (macToString a.addr)
    ssid := if a.ssid.length ≠ 0 then some a.ssid else none
    lat := if a.has_geo = true then some (printDouble8 (anchorGeo a).1) else none
    lon := if a.has_geo = true then some (printDouble8 (anchorGeo a).2) else none }

/-- The item written for a Watching track. -/
noncomputable def writeTrackItem (t : Track) : WItem :=
  { kind := some (if t.kind = .BleAdv then strBleAdv else strWifiClient)
    mac := some (macToString t.addr)
    lat := if t.has_geo = true then some (printDouble8 t.last_lat) else none
    lon := if t.has_geo = true then some (printDouble8 t.last_lon) else none
    tracker_type :=
      if t.tracker_type ≠ .Unknown then some (TrackerTypeName t.tracker_type) else none
    tracker_google_mfr :=
      if t.tracker_google_mfr ≠ .Unknown then some (GoogleMfrName t.tracker_google_mfr) else none
    tracker_samsung_subtype :=
      if t.tracker_samsung_subtype ≠ .Unknown then
        some (SamsungSubtypeName t.tracker_samsung_subtype)
      else none
    tracker_confidence :=
      if t.tracker_confidence ≠ 0 then some t.tracker_confidence else none }

/-- Source translation of `DeviceTracker::writeWatchlist`: the emitted items
array — Watching anchors (that pass the `macToString` length check) first,
then Watching tracks. -/
noncomputable def writeWatchlist (s : TrackerState) : List WItem :=
  (s.anchors.filter
      (fun a => a.in_use && a.watching && decide ((macToString a.addr).length = 17))).map
    writeAnchorItem ++
  (s.tracks.filter
      (fun t => t.in_use && t.watching && decide ((macToString t.addr).length = 17))).map
    writeTrackItem

/-- In-place update of one slot (`l` unchanged when the index is absent). -/
def modifyAt {α : Type} (l : List α) (i : Nat) (f : α → α) : List α :=
  match l[i]? with
  | some x => l.set i (f x)
  | none => l

/-- The mutations `readWatchlist` applies to a matched (or just allocated)
anchor: set Watching, copy the SSID when present, restore best-pass geo and
clear the centroid when both coordinates are present. -/
def applyAnchorItem (a : Anchor) (it : WItem) : Anchor :=
  let a1 := { a with watching := true }
  let a2 := match it.ssid with
    | some ss => { a1 with ssid := ss.take 32 }
    | none => a1
  match it.lat, it.lon with
  | some la, some lo =>
    { a2 with best_lat := la, best_lon := lo, best_rssi := -127,
              w_sum := 0, w_lat := 0, w_lon := 0, has_geo := true }
  | _, _ => a2

/-- The anchor slot allocated by `readWatchlist` for an unmatched item. -/
def newAnchorFromItem (mac : List Nat) (ts idx : Nat) : Anchor :=
  { in_use := true, addr := mac, index := idx, last_seen_s := ts, last_rssi := -95 }

/-- The tracker-field restoration and Watching set applied to a matched (or
just allocated) track. -/
def applyTrackItem (t : Track) (it : WItem) : Track :=
  let t1 := match it.tracker_type with
    | some s =>
      match ParseTrackerType s with
      | some tt => { t with tracker_type := tt }
      | none => t
    | none => t
  let t2 := match it.tracker_google_mfr with
    | some s =>
      match ParseGoogleMfr s with
      | some gm => { t1 with tracker_google_mfr := gm }
      | none => t1
    | none => t1
  let t3 := match it.tracker_samsung_subtype with
    | some s =>
      match ParseSamsungSubtype s with
      | some ss => { t2 with tracker_samsung_subtype := ss }
      | none => t2
    | none => t2
  let t4 := match it.tracker_confidence with
    | some c => { t3 with tracker_confidence := c }
    | none => t3
  { t4 with watching := true }

/-- The track slot allocated by `readWatchlist` for an unmatched item
(geo is restored only on this allocation path). -/
def newTrackFromItem (tk : TrackKind) (mac : List Nat) (it : WItem) (ts idx : Nat) : Track :=
  let t : Track := { in_use := true, kind := tk, addr := mac, index := idx,
                     first_seen_s := ts, last_seen_s := ts, ema_rssi := -95 }
  match it.lat, it.lon with
  | some la, some lo => { t with last_lat := la, last_lon := lo, last_geo_s := ts, has_geo := true }
  | _, _ => t

/-- The accumulating state of the `readWatchlist` item loop. -/
structure ReadState where
  tracks : List Track
  anchors : List Anchor
  next_index : Nat
  applied : Nat
  skipped : Nat

/-- Source translation of one iteration of the `readWatchlist` item loop. -/
def readItem (ts : Nat) (rs : ReadState) (itv : Option WItem) : ReadState :=
  match itv with
  | none => { rs with skipped := rs.skipped + 1 }
  | some it =>
    match it.kind, it.mac with
    | some kindStr, some macStr =>
      match parseKind kindStr, parseMac macStr with
      | some ek, some mac =>
        match ek with
        | .WifiAp =>
          match firstIdx (anchorMatches mac) rs.anchors with
          | some i =>
            { rs with anchors := modifyAt rs.anchors i (fun a => applyAnchorItem a it),
                      applied := rs.applied + 1 }
          | none =>
            match firstIdx (fun a => !a.in_use) rs.anchors with
            | some i =>
              { rs with
                anchors := rs.anchors.set i
                  (applyAnchorItem (newAnchorFromItem mac ts rs.next_index) it),
                next_index := (rs.next_index + 1) % 65536,
                applied := rs.applied + 1 }
            | none => { rs with skipped := rs.skipped + 1 }
        | _ =>
          let tk := if ek = .BleAdv then TrackKind.BleAdv else TrackKind.WifiClient
          match firstIdx (trackMatches tk mac) rs.tracks with
          | some i =>
            { rs with tracks := modifyAt rs.tracks i (fun t => applyTrackItem t it),
                      applied := rs.applied + 1 }
          | none =>
            match firstIdx (fun t => !t.in_use) rs.tracks with
            | some i =>
              { rs with
                tracks := rs.tracks.set i
                  (applyTrackItem (newTrackFromItem tk mac it ts rs.next_index) it),
                next_index := (rs.next_index + 1) % 65536,
                applied := rs.applied + 1 }
            | none => { rs with skipped := rs.skipped + 1 }
      | _, _ => { rs with skipped := rs.skipped + 1 }
    | _, _ => { rs with skipped := rs.skipped + 1 }

/-- The full item loop. -/
def readItems (items : List (Option WItem)) (s : TrackerState) (ts : Nat) : ReadState :=
  items.foldl (readItem ts) ⟨s.tracks, s.anchors, s.next_index, 0, 0⟩

/-- Source translation of `DeviceTracker::readWatchlist`: fails on an
unreadable document or a missing `items` array; otherwise runs the item
loop, recomputes `g_next_index` and returns `applied > 0`. -/
def readWatchlist (doc : Option WDoc) (s : TrackerState) (ts : Nat) :
    TrackerState × Bool :=
  match doc with
  | none => (s, false)
  | some d =>
    match d.items with
    | none => (s, false)
    | some items =>
      let rs := readItems items s ts
      ({ s with tracks := rs.tracks, anchors := rs.anchors,
                next_index := nextIndexAfter rs.tracks rs.anchors },
       decide (0 < rs.applied))

/-- The item-validity test of the loop header: an item is malformed when it
is not an object, lacks `kind`/`mac`, or they fail to parse. -/
def itemMalformed (itv : Option WItem) : Bool :=
  match itv with
  | none => true
  | some it =>
    match it.kind, it.mac with
    | some k, some m => !(parseKind k).isSome || !(parseMac m).isSome
    | _, _ => true

/-- Roundtrip invariant of one track slot under `readWatchlist`: identity,
Watching and last-observation geo survive every item application. -/
def trackSlotInv (t c : Track) : Prop :=
  c.in_use = true ∧ c.watching = true ∧ c.kind = t.kind ∧ c.addr = t.addr ∧
  c.has_geo = t.has_geo ∧ c.last_lat = t.last_lat ∧ c.last_lon = t.last_lon

/-- Roundtrip invariant of one anchor slot under `readWatchlist`: identity
and Watching survive, and the displayed geo is either the original one or
its 8-digit printed form. -/
def anchorSlotInv (a c : Anchor) : Prop :=
  c.in_use = true ∧ c.watching = true ∧ c.addr = a.addr ∧
  (a.has_geo = true → c.has_geo = true ∧
    (anchorGeo c = anchorGeo a ∨
      anchorGeo c = (printDouble8 (anchorGeo a).1, printDouble8 (anchorGeo a).2)))

/-- An item is geo-consistent with anchor `a`: whenever it is an anchor item
whose MAC parses to `a.addr`, it carries exactly the printed coordinates of
`a` (when `a` has geo). -/
def anchorItemGeoOK (a : Anchor) (it : WItem) : Prop :=
  ∀ ks ms mac, it.kind = some ks → it.mac = some ms →
    parseKind ks = some .WifiAp → parseMac ms = some mac → mac = a.addr →
    (a.has_geo = true → it.lat = some (printDouble8 (anchorGeo a).1) ∧
      it.lon = some (printDouble8 (anchorGeo a).2))

/-! ## Concrete instances used by witnesses and counterexamples -/

/-- A fresh, empty tracker state. -/
def emptyState : TrackerState :=
  { tracks := [], anchors := [], next_index := 1, last_fp := {},
    last_env_tick_s := 0, segment_id := 1, move_segments := 0,
    current_window := 0, window_unique_hits := 0,
    gps_valid := false, gps_lat := 0, gps_lon := 0,
    gps_anchor_valid := false, gps_anchor_lat := 0, gps_anchor_lon := 0,
    last_gps_seg_s := 0 }

/-- A watched in-use BLE track. -/
def wTrack : Track :=
  { in_use := true, kind := .BleAdv, addr := [1, 2, 3, 4, 5, 6],
    watching := true, index := 1, first_seen_s := 3, last_seen_s := 4 }

/-- A watched in-use anchor. -/
def wAnchor : Anchor :=
  { in_use := true, addr := [10, 11, 12, 13, 14, 15], watching := true,
    index := 2, last_seen_s := 4 }

/-- A state holding one watched track and one watched anchor. -/
def wState : TrackerState :=
  { emptyState with tracks := [wTrack], anchors := [wAnchor], next_index := 3 }

/-- A state in fingerprint mode (no GNSS fix) whose environment window has
elapsed, holding an empty previous fingerprint and no anchors. -/
def fpState : TrackerState :=
  { emptyState with last_env_tick_s := 5, last_fp := ⟨[]⟩ }

/-- A fingerprint-mode state whose previous fingerprint and current anchor
set have disjoint address sets. -/
def advState : TrackerState :=
  { emptyState with
    last_env_tick_s := 5
    last_fp := ⟨[⟨[2, 2, 2, 2, 2, 2], 2⟩]⟩
    anchors := [{ in_use := true, addr := [3, 3, 3, 3, 3, 3], last_rssi := -60,
                  last_seen_s := 40 }] }

/-- A GNSS-mode state whose current fix is one degree of longitude east of
the stored anchor. -/
def gnssAdvState : TrackerState :=
  { emptyState with gps_valid := true, gps_anchor_valid := true, gps_lon := 1 }

/-- A GNSS-mode state whose current fix coincides with the stored anchor. -/
def gnssStayState : TrackerState :=
  { emptyState with gps_valid := true, gps_anchor_valid := true }

/-! ## Proofs -/

theorem clamp01_nonneg (x : ℝ) : 0 ≤ clamp01 x := by
  unfold clamp01; split_ifs <;> linarith

theorem clamp01_le_one (x : ℝ) : clamp01 x ≤ 1 := by
  unfold clamp01; split_ifs <;> linarith

theorem ite_clamp_eq (S : ℝ) :
    (if S < 0 then (0 : ℝ) else if S > 100 then 100 else S) = clamp 0 100 S := by
  unfold clamp
  split_ifs with h1 h2
  · rw [min_eq_right (by linarith : S ≤ (100 : ℝ)), max_eq_left (le_of_lt h1)]
  · rw [min_eq_left (by linarith : (100 : ℝ) ≤ S), max_eq_right (by norm_num : (0 : ℝ) ≤ 100)]
  · rw [min_eq_right (by linarith : S ≤ (100 : ℝ)), max_eq_right (by linarith : (0 : ℝ) ≤ S)]

theorem score_track_eq_spec (t : Track) (ms : Nat) (sr : ℝ) :
    score_track t ms sr = scoreSpec t ms sr := by
  unfold score_track scoreSpec T_CAP_MIN RSSI_DEV_CAP CROWD_LO CROWD_HI
  rw [show ((40 : ℝ) - 5) = 35 by norm_num]
  exact ite_clamp_eq _

theorem clamp_0_100_nonneg (x : ℝ) : 0 ≤ clamp 0 100 x := le_max_left 0 _

theorem clamp_0_100_le (x : ℝ) : clamp 0 100 x ≤ 100 :=
  max_le (by norm_num) (min_le_left 100 x)

theorem score_track_nonneg (t : Track) (ms : Nat) (sr : ℝ) :
    0 ≤ score_track t ms sr := by
  rw [score_track_eq_spec]; exact clamp_0_100_nonneg _

theorem score_track_le_100 (t : Track) (ms : Nat) (sr : ℝ) :
    score_track t ms sr ≤ 100 := by
  rw [score_track_eq_spec]; exact clamp_0_100_le _

/-- C1: for every Track `t`, move-segment count and stationary ratio, the
scoring function returns `clamp(P + R + M + C + I, 0, 100)` with the
components exactly as the specification states them, and in particular the
result is always in `[0, 100]`. -/
theorem claim_C1_score_formula_and_bounds (t : Track) (ms : Nat) (sr : ℝ) :
    score_track t ms sr = scoreSpec t ms sr ∧
      0 ≤ score_track t ms sr ∧ score_track t ms sr ≤ 100 :=
  ⟨score_track_eq_spec t ms sr, score_track_nonneg t ms sr, score_track_le_100 t ms sr⟩

theorem firstIdx_none_iff {α : Type} (p : α → Bool) (l : List α) :
    firstIdx p l = none ↔ ∀ x ∈ l, p x = false := by
  induction l with
  | nil => simp [firstIdx]
  | cons x xs ih =>
    cases hx : p x with
    | true =>
      simp only [firstIdx, hx, if_true]
      constructor
      · intro h
        exact absurd h (by simp)
      · intro h
        have hx' := h x (List.mem_cons_self x xs)
        rw [hx] at hx'
        exact absurd hx' (by simp)
    | false =>
      simp only [firstIdx, hx, Bool.false_eq_true, if_false, Option.map_eq_none',
        ih, List.mem_cons]
      constructor
      · intro h y hy
        rcases hy with rfl | hy
        · exact hx
        · exact h y hy
      · intro h y hy
        exact h y (Or.inr hy)

theorem firstIdx_some {α : Type} (p : α → Bool) (l : List α) (i : Nat)
    (h : firstIdx p l = some i) :
    ∃ x, l[i]? = some x ∧ p x = true := by
  induction l generalizing i with
  | nil => simp [firstIdx] at h
  | cons x xs ih =>
    cases hx : p x with
    | true =>
      simp only [firstIdx, hx, if_true, Option.some.injEq] at h
      subst h
      exact ⟨x, by simp, hx⟩
    | false =>
      simp only [firstIdx, hx, Bool.false_eq_true, if_false, Option.map_eq_some'] at h
      obtain ⟨j, hj, rfl⟩ := h
      obtain ⟨y, hy, hpy⟩ := ih j hj
      exact ⟨y, by simpa using hy, hpy⟩

theorem firstIdx_first {α : Type} (p : α → Bool) (l : List α) (i : Nat)
    (h : firstIdx p l = some i) :
    ∀ j, j < i → ∀ y, l[j]? = some y → p y = false := by
  induction l generalizing i with
  | nil => simp [firstIdx] at h
  | cons x xs ih =>
    cases hx : p x with
    | true =>
      simp only [firstIdx, hx, if_true, Option.some.injEq] at h
      omega
    | false =>
      simp only [firstIdx, hx, Bool.false_eq_true, if_false, Option.map_eq_some'] at h
      obtain ⟨k, hk, rfl⟩ := h
      intro j hj y hy
      match j with
      | 0 =>
        simp only [List.getElem?_cons_zero, Option.some.injEq] at hy
        subst hy
        exact hx
      | j + 1 =>
        simp only [List.getElem?_cons_succ] at hy
        exact ih k hk j (by omega) y hy

theorem evictGo_oldest_le {α : Type} (good : α → Bool) (key : α → Nat)
    (l : List α) (i : Nat) (ev : Option Nat) (oldest : Nat) :
    (evictGo good key l i ev oldest).2 ≤ oldest := by
  induction l generalizing i ev oldest with
  | nil => simp [evictGo]
  | cons x xs ih =>
    by_cases hcond : (good x && decide (key x < oldest)) = true
    · have hk : key x < oldest := by
        simp only [Bool.and_eq_true, decide_eq_true_eq] at hcond
        exact hcond.2
      rw [evictGo, if_pos hcond]
      exact le_trans (ih _ _ _) (le_of_lt hk)
    · rw [evictGo, if_neg hcond]
      exact ih _ _ _

theorem evictGo_le_good_keys {α : Type} (good : α → Bool) (key : α → Nat)
    (l : List α) (i : Nat) (ev : Option Nat) (oldest : Nat) :
    ∀ x ∈ l, good x = true → key x < oldest →
      (evictGo good key l i ev oldest).2 ≤ key x := by
  induction l generalizing i ev oldest with
  | nil => simp
  | cons y ys ih =>
    intro x hx hgx hkx
    by_cases hcond : (good y && decide (key y < oldest)) = true
    · rw [evictGo, if_pos hcond]
      rcases List.mem_cons.mp hx with rfl | hx
      · exact evictGo_oldest_le good key ys (i + 1) (some i) (key x)
      · by_cases hxy : key x < key y
        · exact ih _ _ _ x hx hgx hxy
        · exact le_trans (evictGo_oldest_le good key ys (i + 1) (some i) (key y))
            (by omega)
    · rw [evictGo, if_neg hcond]
      rcases List.mem_cons.mp hx with rfl | hx
      · exact absurd (by simp [hgx, hkx]) hcond
      · exact ih _ _ _ x hx hgx hkx

theorem evictGo_some {α : Type} (good : α → Bool) (key : α → Nat)
    (l : List α) (i₀ : Nat) (ev : Option Nat) (oldest : Nat) (i : Nat)
    (h : (evictGo good key l i₀ ev oldest).1 = some i) :
    (ev = some i ∧ (evictGo good key l i₀ ev oldest).2 = oldest) ∨
      ∃ k x, l[k]? = some x ∧ i = i₀ + k ∧ good x = true ∧
        key x = (evictGo good key l i₀ ev oldest).2 := by
  induction l generalizing i₀ ev oldest with
  | nil =>
    refine Or.inl ⟨h, ?_⟩
    rfl
  | cons y ys ih =>
    by_cases hcond : (good y && decide (key y < oldest)) = true
    · have hg : good y = true := by
        simp only [Bool.and_eq_true, decide_eq_true_eq] at hcond
        exact hcond.1
      rw [evictGo, if_pos hcond] at h ⊢
      rcases ih (i₀ + 1) (some i₀) (key y) h with ⟨h1, h2⟩ | ⟨k, x, hk, hik, hgx, hkey⟩
      · exact Or.inr ⟨0, y, by simp, by simpa using h1.symm, hg, h2.symm⟩
      · exact Or.inr ⟨k + 1, x, by simpa using hk, by omega, hgx, hkey⟩
    · rw [evictGo, if_neg hcond] at h ⊢
      rcases ih (i₀ + 1) ev oldest h with ⟨h1, h2⟩ | ⟨k, x, hk, hik, hgx, hkey⟩
      · exact Or.inl ⟨h1, h2⟩
      · exact Or.inr ⟨k + 1, x, by simpa using hk, by omega, hgx, hkey⟩

theorem evictGo_of_no_good {α : Type} (good : α → Bool) (key : α → Nat)
    (l : List α) (i : Nat) (ev : Option Nat) (oldest : Nat)
    (h : ∀ x ∈ l, good x = false) :
    evictGo good key l i ev oldest = (ev, oldest) := by
  induction l generalizing i with
  | nil => rfl
  | cons x xs ih =>
    have hx : good x = false := h x (List.mem_cons_self x xs)
    have hcond : (good x && decide (key x < oldest)) = false := by
      rw [hx]; rfl
    rw [evictGo, if_neg (by simp [hcond])]
    exact ih _ fun y hy => h y (List.mem_cons_of_mem x hy)

theorem evictGo_ne_none_of_some {α : Type} (good : α → Bool) (key : α → Nat)
    (l : List α) (i : Nat) (j : Nat) (oldest : Nat) :
    (evictGo good key l i (some j) oldest).1 ≠ none := by
  induction l generalizing i j oldest with
  | nil => simp [evictGo]
  | cons x xs ih =>
    by_cases hcond : (good x && decide (key x < oldest)) = true
    · rw [evictGo, if_pos hcond]; exact ih _ _ _
    · rw [evictGo, if_neg hcond]; exact ih _ _ _

theorem evictGo_ne_none {α : Type} (good : α → Bool) (key : α → Nat)
    (l : List α) (x : α) (hgx : good x = true) :
    ∀ (i : Nat) (ev : Option Nat) (oldest : Nat), x ∈ l → key x < oldest →
    (evictGo good key l i ev oldest).1 ≠ none := by
  induction l with
  | nil => intro i ev oldest hx; simp at hx
  | cons y ys ih =>
    intro i ev oldest hx hkx
    by_cases hcond : (good y && decide (key y < oldest)) = true
    · rw [evictGo, if_pos hcond]
      exact evictGo_ne_none_of_some good key ys (i + 1) i (key y)
    · rw [evictGo, if_neg hcond]
      rcases List.mem_cons.mp hx with rfl | hx
      · exact absurd (by simp [hgx, hkx]) hcond
      · exact ih (i + 1) ev oldest hx hkx

theorem evictIdx_none_iff {α : Type} (good : α → Bool) (key : α → Nat)
    (l : List α) (hbound : ∀ x ∈ l, good x = true → key x < 2 ^ 32 - 1) :
    evictIdx good key l = none ↔ ∀ x ∈ l, good x = false := by
  constructor
  · intro h x hx
    cases hgx : good x with
    | false => rfl
    | true =>
      exact absurd h (evictGo_ne_none good key l x hgx 0 none _ hx (hbound x hx hgx))
  · intro h
    unfold evictIdx
    rw [evictGo_of_no_good good key l 0 none _ h]

theorem evictIdx_some {α : Type} (good : α → Bool) (key : α → Nat)
    (l : List α) (i : Nat) (h : evictIdx good key l = some i) :
    ∃ x, l[i]? = some x ∧ good x = true ∧
      ∀ y ∈ l, good y = true → key x ≤ key y := by
  unfold evictIdx at h
  rcases evictGo_some good key l 0 none _ i h with ⟨h1, _⟩ | ⟨k, x, hk, hik, hgx, hkey⟩
  · exact absurd h1 (by simp)
  · subst hik
    refine ⟨x, by simpa using hk, hgx, ?_⟩
    intro y hy hgy
    by_cases hylt : key y < 2 ^ 32 - 1
    · rw [hkey]
      exact evictGo_le_good_keys good key l 0 none _ y hy hgy hylt
    · have : key x ≤ 2 ^ 32 - 1 := by
        rw [hkey]
        exact evictGo_oldest_le good key l 0 none _
      omega

/-! ### C3: find_or_alloc characterisation -/

theorem trackMatches_true_iff (kind : TrackKind) (addr : List Nat) (t : Track) :
    trackMatches kind addr t = true ↔
      t.in_use = true ∧ t.kind = kind ∧ t.addr = addr := by
  simp [trackMatches, Bool.and_eq_true, and_assoc]

theorem trackEvictable_true_iff (t : Track) :
    trackEvictable t = true ↔ t.in_use = true ∧ t.watching = false := by
  simp [trackEvictable, Bool.and_eq_true]

theorem anchorMatches_true_iff (addr : List Nat) (a : Anchor) :
    anchorMatches addr a = true ↔ a.in_use = true ∧ a.addr = addr := by
  simp [anchorMatches, Bool.and_eq_true]

theorem anchorEvictable_true_iff (a : Anchor) :
    anchorEvictable a = true ↔ a.in_use = true ∧ a.watching = false := by
  simp [anchorEvictable, Bool.and_eq_true]

/-- C3: `find_or_alloc_track(kind, addr, ts_s)` returns the (first) matching
in-use slot with equal `(kind, addr)` if one exists; otherwise the first
free slot, initialised; otherwise it evicts and reuses an in-use,
non-Watching slot whose `last_seen_s` is minimal among all such slots;
amended failure condition: provided every slot's `last_seen_s` is below the
`UINT32_MAX` eviction sentinel (true of all monotonic boot-relative
timestamps), the call fails if and only if no slot matches and every slot
in the table is in-use and Watching.  The same shape holds for
`find_or_alloc_anchor`. -/
theorem claim_C3_find_or_alloc_characterisation
    (tracks : List Track) (anchors : List Anchor) (ni seg : Nat)
    (kind : TrackKind) (addr baddr : List Nat) (ts : Nat) :
    (∀ i, firstIdx (trackMatches kind addr) tracks = some i →
      find_or_alloc_track tracks ni seg kind addr ts = ⟨tracks, ni, some i⟩ ∧
      ∃ t, tracks[i]? = some t ∧ t.in_use = true ∧ t.kind = kind ∧ t.addr = addr) ∧
    (firstIdx (trackMatches kind addr) tracks = none →
      ∀ i, firstIdx (fun t => !t.in_use) tracks = some i →
        find_or_alloc_track tracks ni seg kind addr ts =
          ⟨tracks.set i (initTrack kind addr ts ni seg), (ni + 1) % 65536, some i⟩ ∧
        (∃ t, tracks[i]? = some t ∧ t.in_use = false) ∧
        ∀ j, j < i → ∀ u, tracks[j]? = some u → u.in_use = true) ∧
    (firstIdx (trackMatches kind addr) tracks = none →
      firstIdx (fun t => !t.in_use) tracks = none →
      ∀ i, evictIdx trackEvictable (fun t => t.last_seen_s) tracks = some i →
        find_or_alloc_track tracks ni seg kind addr ts =
          ⟨tracks.set i (initTrack kind addr ts ni seg), (ni + 1) % 65536, some i⟩ ∧
        ∃ t, tracks[i]? = some t ∧ t.in_use = true ∧ t.watching = false ∧
          ∀ u ∈ tracks, u.in_use = true → u.watching = false →
            t.last_seen_s ≤ u.last_seen_s) ∧
    ((∀ t ∈ tracks, t.last_seen_s < 2 ^ 32 - 1) →
      ((find_or_alloc_track tracks ni seg kind addr ts).slot = none ↔
        (∀ t ∈ tracks, trackMatches kind addr t = false) ∧
        ∀ t ∈ tracks, t.in_use = true ∧ t.watching = true)) ∧
    (∀ i, firstIdx (anchorMatches baddr) anchors = some i →
      find_or_alloc_anchor anchors ni baddr ts = ⟨anchors, ni, some i⟩ ∧
      ∃ a, anchors[i]? = some a ∧ a.in_use = true ∧ a.addr = baddr) ∧
    (firstIdx (anchorMatches baddr) anchors = none →
      ∀ i, firstIdx (fun a => !a.in_use) anchors = some i →
        find_or_alloc_anchor anchors ni baddr ts =
          ⟨anchors.set i (initAnchor baddr ts ni), (ni + 1) % 65536, some i⟩ ∧
        (∃ a, anchors[i]? = some a ∧ a.in_use = false) ∧
        ∀ j, j < i → ∀ u, anchors[j]? = some u → u.in_use = true) ∧
    (firstIdx (anchorMatches baddr) anchors = none →
      firstIdx (fun a => !a.in_use) anchors = none →
      ∀ i, evictIdx anchorEvictable (fun a => a.last_seen_s) anchors = some i →
        find_or_alloc_anchor anchors ni baddr ts =
          ⟨anchors.set i (initAnchor baddr ts ni), (ni + 1) % 65536, some i⟩ ∧
        ∃ a, anchors[i]? = some a ∧ a.in_use = true ∧ a.watching = false ∧
          ∀ u ∈ anchors, u.in_use = true → u.watching = false →
            a.last_seen_s ≤ u.last_seen_s) ∧
    ((∀ a ∈ anchors, a.last_seen_s < 2 ^ 32 - 1) →
      ((find_or_alloc_anchor anchors ni baddr ts).slot = none ↔
        (∀ a ∈ anchors, anchorMatches baddr a = false) ∧
        ∀ a ∈ anchors, a.in_use = true ∧ a.watching = true)) := by
  refine ⟨?_, ?_, ?_, ?_, ?_, ?_, ?_, ?_⟩
  · intro i h
    refine ⟨by simp only [find_or_alloc_track, h], ?_⟩
    obtain ⟨t, ht, hpt⟩ := firstIdx_some _ _ _ h
    exact ⟨t, ht, (trackMatches_true_iff kind addr t).mp hpt⟩
  · intro h0 i h
    refine ⟨by simp only [find_or_alloc_track, h0, h], ?_, ?_⟩
    · obtain ⟨t, ht, hpt⟩ := firstIdx_some _ _ _ h
      exact ⟨t, ht, by simpa using hpt⟩
    · intro j hj u hu
      have := firstIdx_first _ _ _ h j hj u hu
      simpa using this
  · intro h0 h1 i h
    refine ⟨by simp only [find_or_alloc_track, h0, h1, h], ?_⟩
    obtain ⟨t, ht, hgt, hmin⟩ := evictIdx_some _ _ _ _ h
    obtain ⟨htu, htw⟩ := (trackEvictable_true_iff t).mp hgt
    refine ⟨t, ht, htu, htw, ?_⟩
    intro u hu huu huw
    exact hmin u hu ((trackEvictable_true_iff u).mpr ⟨huu, huw⟩)
  · intro hbound
    constructor
    · intro hnone
      cases h0 : firstIdx (trackMatches kind addr) tracks with
      | some i => simp only [find_or_alloc_track, h0] at hnone; exact absurd hnone (by simp)
      | none =>
        cases h1 : firstIdx (fun t => !t.in_use) tracks with
        | some i => simp only [find_or_alloc_track, h0, h1] at hnone; exact absurd hnone (by simp)
        | none =>
          cases h2 : evictIdx trackEvictable (fun t => t.last_seen_s) tracks with
          | some i => simp only [find_or_alloc_track, h0, h1, h2] at hnone; exact absurd hnone (by simp)
          | none =>
            have hall := (firstIdx_none_iff _ _).mp h0
            have hfree := (firstIdx_none_iff _ _).mp h1
            have hev := (evictIdx_none_iff trackEvictable (fun t => t.last_seen_s) tracks
              (fun t ht _ => hbound t ht)).mp h2
            refine ⟨hall, ?_⟩
            intro t ht
            have hu : t.in_use = true := by
              have := hfree t ht; simpa using this
            have hw := hev t ht
            rw [trackEvictable, hu, Bool.true_and] at hw
            exact ⟨hu, by simpa using hw⟩
    · rintro ⟨hmatch, hall⟩
      have h0 : firstIdx (trackMatches kind addr) tracks = none :=
        (firstIdx_none_iff _ _).mpr hmatch
      have h1 : firstIdx (fun t => !t.in_use) tracks = none := by
        refine (firstIdx_none_iff _ _).mpr ?_
        intro t ht
        simp [(hall t ht).1]
      have h2 : evictIdx trackEvictable (fun t => t.last_seen_s) tracks = none := by
        refine (evictIdx_none_iff trackEvictable (fun t => t.last_seen_s) tracks
          (fun t ht _ => hbound t ht)).mpr ?_
        intro t ht
        simp [trackEvictable, (hall t ht).1, (hall t ht).2]
      simp only [find_or_alloc_track, h0, h1, h2]
  · intro i h
    refine ⟨by simp only [find_or_alloc_anchor, h], ?_⟩
    obtain ⟨a, ha, hpa⟩ := firstIdx_some _ _ _ h
    exact ⟨a, ha, (anchorMatches_true_iff baddr a).mp hpa⟩
  · intro h0 i h
    refine ⟨by simp only [find_or_alloc_anchor, h0, h], ?_, ?_⟩
    · obtain ⟨a, ha, hpa⟩ := firstIdx_some _ _ _ h
      exact ⟨a, ha, by simpa using hpa⟩
    · intro j hj u hu
      have := firstIdx_first _ _ _ h j hj u hu
      simpa using this
  · intro h0 h1 i h
    refine ⟨by simp only [find_or_alloc_anchor, h0, h1, h], ?_⟩
    obtain ⟨a, ha, hga, hmin⟩ := evictIdx_some _ _ _ _ h
    obtain ⟨hau, haw⟩ := (anchorEvictable_true_iff a).mp hga
    refine ⟨a, ha, hau, haw, ?_⟩
    intro u hu huu huw
    exact hmin u hu ((anchorEvictable_true_iff u).mpr ⟨huu, huw⟩)
  · intro hbound
    constructor
    · intro hnone
      cases h0 : firstIdx (anchorMatches baddr) anchors with
      | some i => simp only [find_or_alloc_anchor, h0] at hnone; exact absurd hnone (by simp)
      | none =>
        cases h1 : firstIdx (fun a => !a.in_use) anchors with
        | some i => simp only [find_or_alloc_anchor, h0, h1] at hnone; exact absurd hnone (by simp)
        | none =>
          cases h2 : evictIdx anchorEvictable (fun a => a.last_seen_s) anchors with
          | some i => simp only [find_or_alloc_anchor, h0, h1, h2] at hnone; exact absurd hnone (by simp)
          | none =>
            have hall := (firstIdx_none_iff _ _).mp h0
            have hfree := (firstIdx_none_iff _ _).mp h1
            have hev := (evictIdx_none_iff anchorEvictable (fun a => a.last_seen_s) anchors
              (fun a ha _ => hbound a ha)).mp h2
            refine ⟨hall, ?_⟩
            intro a ha
            have hu : a.in_use = true := by
              have := hfree a ha; simpa using this
            have hw := hev a ha
            rw [anchorEvictable, hu, Bool.true_and] at hw
            exact ⟨hu, by simpa using hw⟩
    · rintro ⟨hmatch, hall⟩
      have h0 : firstIdx (anchorMatches baddr) anchors = none :=
        (firstIdx_none_iff _ _).mpr hmatch
      have h1 : firstIdx (fun a => !a.in_use) anchors = none := by
        refine (firstIdx_none_iff _ _).mpr ?_
        intro a ha
        simp [(hall a ha).1]
      have h2 : evictIdx anchorEvictable (fun a => a.last_seen_s) anchors = none := by
        refine (evictIdx_none_iff anchorEvictable (fun a => a.last_seen_s) anchors
          (fun a ha _ => hbound a ha)).mpr ?_
        intro a ha
        simp [anchorEvictable, (hall a ha).1, (hall a ha).2]
      simp only [find_or_alloc_anchor, h0, h1, h2]

/-- C3 counterexample: in a table whose single slot is in-use, Watching and
matches the requested `(kind, addr)`, every slot is in-use and Watching but
`find_or_alloc_track` succeeds (it returns the matching watched slot), so
"returns failure if and only if every slot is in-use and Watching" is false
as stated. -/
theorem claim_C3_counterexample :
    (∀ t ∈ [({ in_use := true, kind := .BleAdv, addr := [1, 2, 3, 4, 5, 6], watching := true } : Track)],
        t.in_use = true ∧ t.watching = true) ∧
    (find_or_alloc_track
        [({ in_use := true, kind := .BleAdv, addr := [1, 2, 3, 4, 5, 6], watching := true } : Track)]
        7 1 .BleAdv [1, 2, 3, 4, 5, 6] 5).slot = some 0 := by
  constructor
  · intro t ht
    rcases List.mem_singleton.mp ht with rfl
    exact ⟨rfl, rfl⟩
  · rfl

theorem claim_C3_witness :
    (firstIdx (trackMatches .BleAdv [1, 2, 3, 4, 5, 6])
        [({ in_use := true, kind := .BleAdv, addr := [1, 2, 3, 4, 5, 6] } : Track)] = some 0) ∧
    find_or_alloc_track
        [({ in_use := true, kind := .BleAdv, addr := [1, 2, 3, 4, 5, 6] } : Track)]
        7 1 .BleAdv [1, 2, 3, 4, 5, 6] 5 =
      ⟨[({ in_use := true, kind := .BleAdv, addr := [1, 2, 3, 4, 5, 6] } : Track)], 7, some 0⟩ := by
  refine ⟨rfl, ?_⟩
  exact ((claim_C3_find_or_alloc_characterisation
    [({ in_use := true, kind := .BleAdv, addr := [1, 2, 3, 4, 5, 6] } : Track)]
    [] 7 1 .BleAdv [1, 2, 3, 4, 5, 6] [] 5).1 0 rfl).1

/-! ### C4: Watching slots are never freed -/

/-- C4: a Watching, in-use slot is untouched by `expire_tables`, never
selected for eviction (nor otherwise modified) by `find_or_alloc_track` /
`find_or_alloc_anchor`, and left intact by `reset()`. -/
theorem claim_C4_watching_never_freed
    (s : TrackerState) (ts ni seg ts' : Nat) (kind : TrackKind)
    (addr baddr : List Nat) (i j : Nat) (t : Track) (a : Anchor)
    (hti : s.tracks[i]? = some t) (htu : t.in_use = true) (htw : t.watching = true)
    (haj : s.anchors[j]? = some a) (hau : a.in_use = true) (haw : a.watching = true) :
    (expireTracks s.tracks ts)[i]? = some t ∧
    ((find_or_alloc_track s.tracks ni seg kind addr ts').tracks)[i]? = some t ∧
    ((reset s).tracks)[i]? = some t ∧
    (expireAnchors s.anchors ts)[j]? = some a ∧
    ((find_or_alloc_anchor s.anchors ni baddr ts').anchors)[j]? = some a ∧
    ((reset s).anchors)[j]? = some a := by
  have hexpT : (expireTracks s.tracks ts)[i]? = some t := by
    unfold expireTracks
    rw [List.getElem?_map, hti]
    simp [htu, htw]
  have hresetT : ((reset s).tracks)[i]? = some t := by
    unfold reset
    rw [List.getElem?_map, hti]
    simp [htu, htw]
  have hallocT : ((find_or_alloc_track s.tracks ni seg kind addr ts').tracks)[i]? = some t := by
    cases h0 : firstIdx (trackMatches kind addr) s.tracks with
    | some k => simp only [find_or_alloc_track, h0]; exact hti
    | none =>
      cases h1 : firstIdx (fun u => !u.in_use) s.tracks with
      | some k =>
        simp only [find_or_alloc_track, h0, h1]
        obtain ⟨u, hu, hpu⟩ := firstIdx_some _ _ _ h1
        have hne : k ≠ i := by
          intro hki
          subst hki
          rw [hti] at hu
          cases hu
          rw [htu] at hpu
          simp at hpu
        rw [List.getElem?_set_ne hne]
        exact hti
      | none =>
        cases h2 : evictIdx trackEvictable (fun u => u.last_seen_s) s.tracks with
        | some k =>
          simp only [find_or_alloc_track, h0, h1, h2]
          obtain ⟨u, hu, hgu, _⟩ := evictIdx_some _ _ _ _ h2
          have hne : k ≠ i := by
            intro hki
            subst hki
            rw [hti] at hu
            cases hu
            obtain ⟨_, hw⟩ := (trackEvictable_true_iff t).mp hgu
            rw [htw] at hw
            cases hw
          rw [List.getElem?_set_ne hne]
          exact hti
        | none => simp only [find_or_alloc_track, h0, h1, h2]; exact hti
  have hexpA : (expireAnchors s.anchors ts)[j]? = some a := by
    unfold expireAnchors
    rw [List.getElem?_map, haj]
    simp [hau, haw]
  have hresetA : ((reset s).anchors)[j]? = some a := by
    unfold reset
    rw [List.getElem?_map, haj]
    simp [hau, haw]
  have hallocA : ((find_or_alloc_anchor s.anchors ni baddr ts').anchors)[j]? = some a := by
    cases h0 : firstIdx (anchorMatches baddr) s.anchors with
    | some k => simp only [find_or_alloc_anchor, h0]; exact haj
    | none =>
      cases h1 : firstIdx (fun u => !u.in_use) s.anchors with
      | some k =>
        simp only [find_or_alloc_anchor, h0, h1]
        obtain ⟨u, hu, hpu⟩ := firstIdx_some _ _ _ h1
        have hne : k ≠ j := by
          intro hkj
          subst hkj
          rw [haj] at hu
          cases hu
          rw [hau] at hpu
          simp at hpu
        rw [List.getElem?_set_ne hne]
        exact haj
      | none =>
        cases h2 : evictIdx anchorEvictable (fun u => u.last_seen_s) s.anchors with
        | some k =>
          simp only [find_or_alloc_anchor, h0, h1, h2]
          obtain ⟨u, hu, hgu, _⟩ := evictIdx_some _ _ _ _ h2
          have hne : k ≠ j := by
            intro hkj
            subst hkj
            rw [haj] at hu
            cases hu
            obtain ⟨_, hw⟩ := (anchorEvictable_true_iff a).mp hgu
            rw [haw] at hw
            cases hw
          rw [List.getElem?_set_ne hne]
          exact haj
        | none => simp only [find_or_alloc_anchor, h0, h1, h2]; exact haj
  exact ⟨hexpT, hallocT, hresetT, hexpA, hallocA, hresetA⟩

/-! ### C10: first observation in window 0 -/

/-- C10: for a newly allocated Track whose first observation has `ts_s < 10`
(window id 0), `update_track_from_obs` performs no window transition —
`seen_windows` and `near_windows` remain 0 and `crowd_ema` is not updated —
because the fresh slot's `last_window` default 0 equals the observation's
window id; for a first observation with `ts_s ≥ 10`, `seen_windows`
becomes 1. -/
theorem claim_C10_window_zero_no_transition (kind : TrackKind) (addr : List Nat)
    (ts idx seg wuh : Nat) (rssi : Int) :
    (ts < 10 →
      (update_track_from_obs (initTrack kind addr ts idx seg) rssi ts seg wuh).seen_windows = 0 ∧
      (update_track_from_obs (initTrack kind addr ts idx seg) rssi ts seg wuh).near_windows = 0 ∧
      (update_track_from_obs (initTrack kind addr ts idx seg) rssi ts seg wuh).crowd_ema =
        (initTrack kind addr ts idx seg).crowd_ema) ∧
    (10 ≤ ts →
      (update_track_from_obs (initTrack kind addr ts idx seg) rssi ts seg wuh).seen_windows = 1) := by
  constructor
  · intro h
    have hw : ts / WINDOW_SEC = 0 := Nat.div_eq_of_lt (by simpa [WINDOW_SEC] using h)
    simp [update_track_from_obs, initTrack, hw]
  · intro h
    have hw : 0 < ts / WINDOW_SEC := Nat.div_pos (by simpa [WINDOW_SEC] using h) (by norm_num [WINDOW_SEC])
    simp [update_track_from_obs, initTrack, Nat.ne_of_lt hw]

theorem claim_C10_witness :
    ((update_track_from_obs (initTrack .BleAdv [1, 2, 3, 4, 5, 6] 5 1 1) (-60) 5 1 0).seen_windows = 0 ∧
      (update_track_from_obs (initTrack .BleAdv [1, 2, 3, 4, 5, 6] 5 1 1) (-60) 5 1 0).near_windows = 0 ∧
      (update_track_from_obs (initTrack .BleAdv [1, 2, 3, 4, 5, 6] 5 1 1) (-60) 5 1 0).crowd_ema =
        (initTrack .BleAdv [1, 2, 3, 4, 5, 6] 5 1 1).crowd_ema) ∧
    (update_track_from_obs (initTrack .BleAdv [1, 2, 3, 4, 5, 6] 100 1 1) (-60) 100 1 0).seen_windows = 1 :=
  ⟨(claim_C10_window_zero_no_transition .BleAdv [1, 2, 3, 4, 5, 6] 5 1 1 0 (-60)).1 (by norm_num),
   (claim_C10_window_zero_no_transition .BleAdv [1, 2, 3, 4, 5, 6] 100 1 1 0 (-60)).2 (by norm_num)⟩

/-! ### C5: BLE classifier decision table -/

/-- C5: `Inspect` follows the fixed first-match-wins decision order of the
specification table: service 0xFEED → Tile 95; 0xFD5A → SmartThingsTracker
95; 0xFD69 → SmartThingsFind 90; 0xFEAA → GoogleFindHub 90; 0xFA25 →
PebbleBee 90; otherwise an Apple (0x004C) manufacturer payload starting
0x12 0x19 gives AppleAirPods 85 when `(byte3 & 0x18) = 0x18`, AppleFindMy 80
when `= 0x10` with service 0xFE33, AppleAirTag 75 when `= 0x10` without it,
and AppleFindMy 65 otherwise; otherwise service 0xFE33 → Chipolo 80;
otherwise Unknown 0.  (Purity/determinism is immediate: `Inspect` is a
function of the advertisement value alone.) -/
theorem claim_C5_classifier_decision_order (dev : Adv) :
    (hasService dev 0xFEED = true →
      (Inspect dev).type = .Tile ∧ (Inspect dev).confidence = 95) ∧
    (hasService dev 0xFEED = false → hasService dev 0xFD5A = true →
      (Inspect dev).type = .SmartThingsTracker ∧ (Inspect dev).confidence = 95) ∧
    (hasService dev 0xFEED = false → hasService dev 0xFD5A = false →
      hasService dev 0xFD69 = true →
      (Inspect dev).type = .SmartThingsFind ∧ (Inspect dev).confidence = 90) ∧
    (hasService dev 0xFEED = false → hasService dev 0xFD5A = false →
      hasService dev 0xFD69 = false → hasService dev 0xFEAA = true →
      (Inspect dev).type = .GoogleFindHub ∧ (Inspect dev).confidence = 90) ∧
    (hasService dev 0xFEED = false → hasService dev 0xFD5A = false →
      hasService dev 0xFD69 = false → hasService dev 0xFEAA = false →
      hasService dev 0xFA25 = true →
      (Inspect dev).type = .PebbleBee ∧ (Inspect dev).confidence = 90) ∧
    (hasService dev 0xFEED = false → hasService dev 0xFD5A = false →
      hasService dev 0xFD69 = false → hasService dev 0xFEAA = false →
      hasService dev 0xFA25 = false →
      ∀ ap, tryGetAppleMfgPayload dev = some ap →
        2 ≤ ap.length → ap.getD 0 0 = 0x12 → ap.getD 1 0 = 0x19 →
        (3 ≤ ap.length → ap.getD 2 0 &&& 0x18 = 0x18 →
          (Inspect dev).type = .AppleAirPods ∧ (Inspect dev).confidence = 85) ∧
        (3 ≤ ap.length → ap.getD 2 0 &&& 0x18 = 0x10 → hasService dev 0xFE33 = true →
          (Inspect dev).type = .AppleFindMy ∧ (Inspect dev).confidence = 80) ∧
        (3 ≤ ap.length → ap.getD 2 0 &&& 0x18 = 0x10 → hasService dev 0xFE33 = false →
          (Inspect dev).type = .AppleAirTag ∧ (Inspect dev).confidence = 75) ∧
        ((ap.length < 3 ∨ (ap.getD 2 0 &&& 0x18 ≠ 0x18 ∧ ap.getD 2 0 &&& 0x18 ≠ 0x10)) →
          (Inspect dev).type = .AppleFindMy ∧ (Inspect dev).confidence = 65)) ∧
    (hasService dev 0xFEED = false → hasService dev 0xFD5A = false →
      hasService dev 0xFD69 = false → hasService dev 0xFEAA = false →
      hasService dev 0xFA25 = false →
      (∀ ap, tryGetAppleMfgPayload dev = some ap →
        ¬(2 ≤ ap.length ∧ ap.getD 0 0 = 0x12 ∧ ap.getD 1 0 = 0x19)) →
      (hasService dev 0xFE33 = true →
        (Inspect dev).type = .Chipolo ∧ (Inspect dev).confidence = 80) ∧
      (hasService dev 0xFE33 = false →
        (Inspect dev).type = .Unknown ∧ (Inspect dev).confidence = 0)) := by
  refine ⟨?_, ?_, ?_, ?_, ?_, ?_, ?_⟩
  · intro h1
    simp [Inspect, h1]
  · intro h1 h2
    simp [Inspect, h1, h2]
  · intro h1 h2 h3
    simp [Inspect, h1, h2, h3]
  · intro h1 h2 h3 h4
    simp [Inspect, h1, h2, h3, h4]
  · intro h1 h2 h3 h4 h5
    simp [Inspect, h1, h2, h3, h4, h5]
  · intro h1 h2 h3 h4 h5 ap hap hlen h12 h19
    simp only [List.getD_eq_getElem?_getD] at h12 h19
    refine ⟨?_, ?_, ?_, ?_⟩
    · intro h3len hmask
      simp only [List.getD_eq_getElem?_getD] at hmask
      simp [Inspect, h1, h2, h3, h4, h5, hap, hlen, h12, h19, h3len, hmask]
    · intro h3len hmask hfe
      simp only [List.getD_eq_getElem?_getD] at hmask
      simp [Inspect, h1, h2, h3, h4, h5, hap, hlen, h12, h19, h3len, hmask, hfe]
    · intro h3len hmask hfe
      simp only [List.getD_eq_getElem?_getD] at hmask
      simp [Inspect, h1, h2, h3, h4, h5, hap, hlen, h12, h19, h3len, hmask, hfe]
    · intro hrest
      have hn3 : ¬ (3 ≤ ap.length ∧ ap.getD 2 0 &&& 0x18 = 0x18) := by
        intro hc
        rcases hrest with hshort | ⟨hm1, hm2⟩
        · omega
        · exact hm1 hc.2
      have hn3' : ¬ (3 ≤ ap.length ∧ ap.getD 2 0 &&& 0x18 = 0x10) := by
        intro hc
        rcases hrest with hshort | ⟨hm1, hm2⟩
        · omega
        · exact hm2 hc.2
      simp only [List.getD_eq_getElem?_getD] at hn3 hn3'
      simp [Inspect, h1, h2, h3, h4, h5, hap, hlen, h12, h19, hn3, hn3']
  · intro h1 h2 h3 h4 h5 hnoapple
    have htail : Inspect dev = inspectTail dev := by
      unfold Inspect
      simp only [h1, h2, h3, h4, h5]
      cases hap : tryGetAppleMfgPayload dev with
      | none => simp
      | some ap =>
        have hthis := hnoapple ap hap
        exact if_neg hthis
    constructor
    · intro hfe
      rw [htail]
      simp [inspectTail, hfe]
    · intro hfe
      rw [htail]
      simp [inspectTail, hfe]

theorem claim_C5_witness :
    (Inspect { services := [0xFEED] }).type = .Tile ∧
    (Inspect { services := [0xFEED] }).confidence = 95 ∧
    (Inspect { services := [], mfg := some [0x4C, 0x00, 0x12, 0x19, 0x10] }).type = .AppleAirTag ∧
    (Inspect { services := [], mfg := some [0x4C, 0x00, 0x12, 0x19, 0x10] }).confidence = 75 := by
  have h1 := (claim_C5_classifier_decision_order { services := [0xFEED] }).1 (by decide)
  have h2 := (claim_C5_classifier_decision_order
    { services := [], mfg := some [0x4C, 0x00, 0x12, 0x19, 0x10] }).2.2.2.2.2.1
    (by decide) (by decide) (by decide) (by decide) (by decide)
    [0x12, 0x19, 0x10] (by decide) (by decide) (by decide) (by decide)
  have h3 := h2.2.2.1 (by decide) (by decide) (by decide)
  exact ⟨h1.1, h1.2, h3.1, h3.2⟩

theorem claim_C4_witness :
    (expireTracks wState.tracks 9999)[0]? = some wTrack ∧
    ((find_or_alloc_track wState.tracks 3 1 .BleAdv [9, 9, 9, 9, 9, 9] 10).tracks)[0]? = some wTrack ∧
    ((reset wState).tracks)[0]? = some wTrack ∧
    (expireAnchors wState.anchors 9999)[0]? = some wAnchor ∧
    ((find_or_alloc_anchor wState.anchors 3 [8, 8, 8, 8, 8, 8] 10).anchors)[0]? = some wAnchor ∧
    ((reset wState).anchors)[0]? = some wAnchor :=
  claim_C4_watching_never_freed wState 9999 3 1 10 .BleAdv [9, 9, 9, 9, 9, 9]
    [8, 8, 8, 8, 8, 8] 0 0 wTrack wAnchor (by simp [wState, emptyState]) rfl rfl
    (by simp [wState, emptyState]) rfl rfl

/-! ### C7: fingerprint similarity -/

theorem clamp01_of_one_le (x : ℝ) (h : 1 ≤ x) : clamp01 x = 1 := by
  unfold clamp01
  split_ifs <;> linarith

theorem clamp01_zero : clamp01 0 = 0 := by
  unfold clamp01
  norm_num

theorem fp_similarity_self (fp : EnvFingerprint) : fp_similarity fp fp = 1 := by
  unfold fp_similarity
  have huni : fp.items.countP
      (fun y => !(fp.items.any (fun x => decide (x.addr = y.addr)))) = 0 := by
    rw [List.countP_eq_zero]
    intro y hy
    have hany : fp.items.any (fun x => decide (x.addr = y.addr)) = true :=
      List.any_eq_true.mpr ⟨y, hy, decide_eq_true rfl⟩
    simp [hany]
  rw [huni]
  unfold EnvFingerprint.count
  by_cases hn : fp.items.length = 0
  · rw [if_pos (by omega)]
  · rw [if_neg (by omega)]
    have hinter : fp.items.countP (fun x => (find_bucket fp x.addr).isSome) =
        fp.items.length := by
      rw [List.countP_eq_length]
      intro x hx
      have : (fp.items.find? (fun it => decide (it.addr = x.addr))).isSome :=
        List.find?_isSome.mpr ⟨x, hx, by simp⟩
      simpa [find_bucket] using this
    rw [hinter]
    have hlen : (fp.items.length : ℝ) ≠ 0 := Nat.cast_ne_zero.mpr hn
    apply clamp01_of_one_le
    have h1 : (fp.items.length : ℝ) / ((fp.items.length + 0 : Nat) : ℝ) = 1 := by
      rw [Nat.add_zero]
      exact div_self hlen
    calc (1 : ℝ) = (fp.items.length : ℝ) / ((fp.items.length + 0 : Nat) : ℝ) := h1.symm
    _ ≤ _ := by
        refine le_add_of_nonneg_right ?_
        rw [Nat.add_zero]
        positivity

theorem fp_similarity_disjoint (a b : EnvFingerprint)
    (hd : ∀ x ∈ a.items, ∀ y ∈ b.items, x.addr ≠ y.addr)
    (hne : a.items.length ≠ 0 ∨ b.items.length ≠ 0) :
    fp_similarity a b = 0 := by
  unfold fp_similarity
  have huni : b.items.countP
      (fun y => !(a.items.any (fun x => decide (x.addr = y.addr)))) = b.items.length := by
    rw [List.countP_eq_length]
    intro y hy
    simp only [Bool.not_eq_true']
    rw [List.any_eq_false]
    intro x hx
    simp [hd x hx y hy]
  rw [huni]
  have hnz : a.count + b.items.length ≠ 0 := by
    simp only [EnvFingerprint.count]
    omega
  rw [if_neg hnz]
  have hfind : ∀ x ∈ a.items, find_bucket b x.addr = none := by
    intro x hx
    unfold find_bucket
    rw [List.find?_eq_none.mpr]
    · rfl
    · intro y hy
      simp [Ne.symm (hd x hx y hy)]
  have hinter : a.items.countP (fun x => (find_bucket b x.addr).isSome) = 0 := by
    rw [List.countP_eq_zero]
    intro x hx
    simp [hfind x hx]
  have hbonus : a.items.countP
      (fun x => decide (find_bucket b x.addr = some x.bucket)) = 0 := by
    rw [List.countP_eq_zero]
    intro x hx
    simp [hfind x hx]
  rw [hinter, hbonus]
  simpa using clamp01_zero

/-- C7 (amended): the similarity function computes `J + bonus/union` clamped
to `[0,1]` with the Jaccard and bucket-bonus terms of the spec; identical
fingerprints always yield similarity 1.0 and no segment advance; and for
every pair of fingerprints with disjoint address sets *at least one of which
is nonempty*, the similarity is 0 (hence ≤ 0.25 and below the 0.50
threshold) and an elapsed fingerprint-mode evaluation advances the segment
by exactly 1. -/
theorem claim_C7_fp_similarity_segmentation (a b : EnvFingerprint)
    (s : TrackerState) (ts : Nat) :
    (fp_similarity a a = 1) ∧
    ((∀ x ∈ a.items, ∀ y ∈ b.items, x.addr ≠ y.addr) →
      (a.items.length ≠ 0 ∨ b.items.length ≠ 0) →
      fp_similarity a b = 0 ∧ fp_similarity a b ≤ 0.25 ∧
        fp_similarity a b < FP_SIMILARITY_MIN) ∧
    (s.gps_valid = false → s.last_env_tick_s ≠ 0 →
      ENV_WINDOW_SEC ≤ ts - s.last_env_tick_s →
      (fp_similarity (build_fingerprint s.anchors ts) s.last_fp < FP_SIMILARITY_MIN →
        (maybe_advance_segment s ts).segment_id = s.segment_id + 1 ∧
        (maybe_advance_segment s ts).move_segments = s.move_segments + 1) ∧
      (FP_SIMILARITY_MIN ≤ fp_similarity (build_fingerprint s.anchors ts) s.last_fp →
        (maybe_advance_segment s ts).segment_id = s.segment_id ∧
        (maybe_advance_segment s ts).move_segments = s.move_segments)) := by
  refine ⟨fp_similarity_self a, ?_, ?_⟩
  · intro hd hne
    have h0 := fp_similarity_disjoint a b hd hne
    refine ⟨h0, by rw [h0]; norm_num, by rw [h0]; norm_num [FP_SIMILARITY_MIN]⟩
  · intro hgps henv helapsed
    have hnotlt : ¬ ts - s.last_env_tick_s < ENV_WINDOW_SEC := not_lt.mpr helapsed
    constructor
    · intro hsim
      unfold maybe_advance_segment
      rw [if_neg (by simp [hgps]), if_neg henv, if_neg hnotlt, if_pos hsim]
      exact ⟨rfl, rfl⟩
    · intro hsim
      unfold maybe_advance_segment
      rw [if_neg (by simp [hgps]), if_neg henv, if_neg hnotlt, if_neg (not_lt.mpr hsim)]
      exact ⟨rfl, rfl⟩

/-- C7 counterexample: two empty fingerprints have (vacuously) disjoint
address sets, yet `fp_similarity` returns 1.0 (the `union = 0` early return),
not a value ≤ 0.25, and an elapsed fingerprint-mode evaluation does not
advance the segment. -/
theorem claim_C7_counterexample :
    (∀ x ∈ (⟨[]⟩ : EnvFingerprint).items, ∀ y ∈ (⟨[]⟩ : EnvFingerprint).items,
      x.addr ≠ y.addr) ∧
    fp_similarity ⟨[]⟩ ⟨[]⟩ = 1 ∧
    ¬ fp_similarity ⟨[]⟩ ⟨[]⟩ ≤ 0.25 ∧
    fpState.last_fp = ⟨[]⟩ ∧
    build_fingerprint fpState.anchors 40 = ⟨[]⟩ ∧
    ENV_WINDOW_SEC ≤ 40 - fpState.last_env_tick_s ∧
    (maybe_advance_segment fpState 40).segment_id = fpState.segment_id ∧
    (maybe_advance_segment fpState 40).move_segments = fpState.move_segments := by
  have hsim : fp_similarity ⟨[]⟩ ⟨[]⟩ = 1 := fp_similarity_self ⟨[]⟩
  have hb : build_fingerprint fpState.anchors 40 = ⟨[]⟩ := rfl
  have hnoadv : (maybe_advance_segment fpState 40).segment_id = fpState.segment_id ∧
      (maybe_advance_segment fpState 40).move_segments = fpState.move_segments := by
    unfold maybe_advance_segment
    rw [if_neg (by simp [fpState, emptyState]),
      if_neg (by simp [fpState, emptyState]),
      if_neg (by norm_num [fpState, emptyState, ENV_WINDOW_SEC])]
    dsimp only
    rw [hb, show fpState.last_fp = ⟨[]⟩ from rfl, hsim]
    rw [if_neg (by norm_num [FP_SIMILARITY_MIN])]
    exact ⟨rfl, rfl⟩
  exact ⟨by simp, hsim, by rw [hsim]; norm_num, rfl, hb,
    by norm_num [fpState, emptyState, ENV_WINDOW_SEC], hnoadv.1, hnoadv.2⟩

theorem claim_C7_witness :
    fp_similarity ⟨[⟨[1, 1, 1, 1, 1, 1], 2⟩]⟩ ⟨[]⟩ = 0 ∧
    fp_similarity ⟨[⟨[1, 1, 1, 1, 1, 1], 2⟩]⟩ ⟨[]⟩ ≤ 0.25 ∧
    (maybe_advance_segment advState 40).segment_id = advState.segment_id + 1 ∧
    (maybe_advance_segment advState 40).move_segments = advState.move_segments + 1 := by
  have h1 := (claim_C7_fp_similarity_segmentation ⟨[⟨[1, 1, 1, 1, 1, 1], 2⟩]⟩ ⟨[]⟩
    emptyState 0).2.1 (by simp) (by simp)
  have hb : build_fingerprint advState.anchors 40 = ⟨[⟨[3, 3, 3, 3, 3, 3], 2⟩]⟩ := by
    decide
  have hsim : fp_similarity (build_fingerprint advState.anchors 40) advState.last_fp
      < FP_SIMILARITY_MIN := by
    rw [hb, show advState.last_fp = ⟨[⟨[2, 2, 2, 2, 2, 2], 2⟩]⟩ from rfl]
    rw [fp_similarity_disjoint _ _ (by simp) (by simp)]
    norm_num [FP_SIMILARITY_MIN]
  have h2 := ((claim_C7_fp_similarity_segmentation ⟨[]⟩ ⟨[]⟩ advState 40).2.2
    (by rfl) (by simp [advState, emptyState])
    (by norm_num [advState, emptyState, ENV_WINDOW_SEC])).1 hsim
  exact ⟨h1.1, h1.2.1, h2.1, h2.2⟩

/-! ### C6: GNSS segmentation -/

theorem haversine_zero : haversine_m 0 0 0 0 = 0 := by
  unfold haversine_m deg2rad atan2
  norm_num

theorem haversine_equator (lon : ℝ) (h1 : 0 < deg2rad lon / 2)
    (h2 : deg2rad lon / 2 < Real.pi / 2) :
    haversine_m 0 0 0 lon = 2 * 6371000 * (deg2rad lon / 2) := by
  have hpi := Real.pi_gt_three
  have hsin : 0 ≤ Real.sin (deg2rad lon / 2) :=
    le_of_lt (Real.sin_pos_of_pos_of_lt_pi h1 (by linarith))
  have hcos : 0 < Real.cos (deg2rad lon / 2) :=
    Real.cos_pos_of_mem_Ioo ⟨by linarith, h2⟩
  unfold haversine_m
  dsimp only
  norm_num
  rw [show deg2rad 0 = 0 by norm_num [deg2rad], zero_div, Real.sin_zero, Real.cos_zero]
  norm_num
  rw [Real.sqrt_mul_self hsin]
  have h1a : 1 - Real.sin (deg2rad lon / 2) * Real.sin (deg2rad lon / 2) =
      Real.cos (deg2rad lon / 2) * Real.cos (deg2rad lon / 2) := by
    nlinarith [Real.sin_sq_add_cos_sq (deg2rad lon / 2)]
  rw [h1a, Real.sqrt_mul_self (le_of_lt hcos)]
  unfold atan2
  rw [if_pos hcos, ← Real.tan_eq_sin_div_cos, Real.arctan_tan (by linarith) h2]

/-- One degree of longitude on the equator is well over the 50 m threshold. -/
theorem haversine_one_deg : (50 : ℝ) ≤ haversine_m 0 0 0 1 := by
  have hpi := Real.pi_gt_three
  have h1 : 0 < deg2rad 1 / 2 := by norm_num [deg2rad]
  have h2 : deg2rad 1 / 2 < Real.pi / 2 := by
    have : deg2rad 1 / 2 < 1.5 := by norm_num [deg2rad]
    linarith
  rw [haversine_equator 1 h1 h2]
  norm_num [deg2rad]

/-- C6: in GNSS mode with a stored anchor, a segmentation evaluation
increments `segment_id` and `move_segments` by exactly 1 and replaces the
anchor exactly when at least 10 s have elapsed since the anchor timestamp
`last_gps_seg_s` (the time of the last evaluation that placed or moved the
anchor) and the haversine distance (earth radius 6 371 000 m) between the
current fix and the anchor is ≥ 50 m; when the distance is below 50 m
(e.g. two fixes 49 m apart) the segment never advances. -/
theorem claim_C6_gnss_segmentation (s : TrackerState) (ts : Nat)
    (hv : s.gps_valid = true) (ha : s.gps_anchor_valid = true) :
    (10 ≤ ts - s.last_gps_seg_s →
      50 ≤ haversine_m s.gps_anchor_lat s.gps_anchor_lon s.gps_lat s.gps_lon →
      (maybe_advance_segment s ts).segment_id = s.segment_id + 1 ∧
      (maybe_advance_segment s ts).move_segments = s.move_segments + 1 ∧
      (maybe_advance_segment s ts).gps_anchor_lat = s.gps_lat ∧
      (maybe_advance_segment s ts).gps_anchor_lon = s.gps_lon ∧
      (maybe_advance_segment s ts).last_gps_seg_s = ts) ∧
    (haversine_m s.gps_anchor_lat s.gps_anchor_lon s.gps_lat s.gps_lon < 50 →
      (maybe_advance_segment s ts).segment_id = s.segment_id ∧
      (maybe_advance_segment s ts).move_segments = s.move_segments) := by
  constructor
  · intro h10 h50
    unfold maybe_advance_segment
    rw [if_pos hv, if_neg (by simp [ha]), if_pos h10, if_pos h50]
    exact ⟨rfl, rfl, rfl, rfl, rfl⟩
  · intro hd
    unfold maybe_advance_segment
    rw [if_pos hv, if_neg (by simp [ha])]
    by_cases h10 : 10 ≤ ts - s.last_gps_seg_s
    · rw [if_pos h10, if_neg (not_le.mpr hd)]
      exact ⟨rfl, rfl⟩
    · rw [if_neg h10]
      exact ⟨rfl, rfl⟩

theorem claim_C6_witness :
    (50 ≤ haversine_m gnssAdvState.gps_anchor_lat gnssAdvState.gps_anchor_lon
        gnssAdvState.gps_lat gnssAdvState.gps_lon) ∧
    (maybe_advance_segment gnssAdvState 10).segment_id = gnssAdvState.segment_id + 1 ∧
    (maybe_advance_segment gnssAdvState 10).move_segments = gnssAdvState.move_segments + 1 ∧
    (maybe_advance_segment gnssAdvState 10).gps_anchor_lon = gnssAdvState.gps_lon ∧
    (maybe_advance_segment gnssAdvState 10).last_gps_seg_s = 10 ∧
    (haversine_m gnssStayState.gps_anchor_lat gnssStayState.gps_anchor_lon
        gnssStayState.gps_lat gnssStayState.gps_lon < 50) ∧
    (maybe_advance_segment gnssStayState 10).segment_id = gnssStayState.segment_id ∧
    (maybe_advance_segment gnssStayState 10).move_segments = gnssStayState.move_segments := by
  have hdistA : 50 ≤ haversine_m gnssAdvState.gps_anchor_lat gnssAdvState.gps_anchor_lon
      gnssAdvState.gps_lat gnssAdvState.gps_lon := by
    show (50 : ℝ) ≤ haversine_m 0 0 0 1
    exact haversine_one_deg
  have hdistS : haversine_m gnssStayState.gps_anchor_lat gnssStayState.gps_anchor_lon
      gnssStayState.gps_lat gnssStayState.gps_lon < 50 := by
    show haversine_m 0 0 0 0 < 50
    rw [haversine_zero]
    norm_num
  have hA := (claim_C6_gnss_segmentation gnssAdvState 10 rfl rfl).1
    (by show 10 ≤ 10 - (0 : Nat); norm_num) hdistA
  have hS := (claim_C6_gnss_segmentation gnssStayState 10 rfl rfl).2 hdistS
  exact ⟨hdistA, hA.1, hA.2.1, hA.2.2.2.1, hA.2.2.2.2, hdistS, hS.1, hS.2⟩

/-! ### C2: snapshot bounds and ordering -/

theorem snapBefore_asymm (x y : EntityView) (h1 : snapBefore x y) (h2 : snapBefore y x) :
    False := by
  unfold snapBefore at h1 h2
  by_cases hw : x.watching = y.watching
  · rw [if_neg (by simp [hw])] at h1
    rw [if_neg (by simp [hw])] at h2
    by_cases hs : x.score = y.score
    · rw [if_neg (by simp [hs])] at h1
      rw [if_neg (by simp [hs])] at h2
      by_cases hr : x.rssi = y.rssi
      · rw [if_neg (by simp [hr])] at h1
        rw [if_neg (by simp [hr])] at h2
        omega
      · rw [if_pos hr] at h1
        rw [if_pos (Ne.symm hr)] at h2
        omega
    · rw [if_pos hs] at h1
      rw [if_pos (Ne.symm hs)] at h2
      linarith
  · rw [if_pos hw] at h1
    rw [if_pos (Ne.symm hw)] at h2
    rw [h1, h2] at hw
    exact hw rfl

theorem lexGE_of_not_before (x y : EntityView) (h : ¬ snapBefore y x) : lexGE x y := by
  unfold snapBefore at h
  unfold lexGE
  by_cases hw : y.watching = x.watching
  · rw [if_neg (by simp [hw])] at h
    refine Or.inr ⟨by rw [watchedRank, watchedRank, hw], ?_⟩
    by_cases hs : y.score = x.score
    · rw [if_neg (by simp [hs])] at h
      refine Or.inr ⟨hs.symm, ?_⟩
      by_cases hr : y.rssi = x.rssi
      · rw [if_neg (by simp [hr])] at h
        refine Or.inr ⟨hr.symm, ?_⟩
        omega
      · rw [if_pos hr] at h
        exact Or.inl (lt_of_le_of_ne (not_lt.mp h) hr)
    · rw [if_pos hs] at h
      exact Or.inl (lt_of_le_of_ne (not_lt.mp h) hs)
  · rw [if_pos hw] at h
    have hy : y.watching = false := by simpa using h
    have hx : x.watching = true := by
      cases hxw : x.watching
      · rw [hy, hxw] at hw
        exact absurd rfl hw
      · rfl
    refine Or.inl ?_
    rw [watchedRank, watchedRank, hx, hy]
    norm_num

theorem not_before_of_lexGE (x y : EntityView) (h : lexGE x y) : ¬ snapBefore y x := by
  intro hb
  unfold snapBefore at hb
  unfold lexGE at h
  by_cases hw : y.watching = x.watching
  · have hrank : watchedRank x = watchedRank y := by rw [watchedRank, watchedRank, hw]
    rw [if_neg (by simp [hw])] at hb
    rcases h with h | ⟨_, h⟩
    · omega
    · by_cases hs : y.score = x.score
      · rw [if_neg (by simp [hs])] at hb
        rcases h with h | ⟨_, h⟩
        · rw [hs] at h
          exact lt_irrefl _ h
        · by_cases hr : y.rssi = x.rssi
          · rw [if_neg (by simp [hr])] at hb
            rcases h with h | ⟨_, h⟩
            · omega
            · omega
          · rw [if_pos hr] at hb
            rcases h with h | ⟨he, _⟩
            · exact absurd hb (not_lt.mpr (le_of_lt h))
            · exact hr he.symm
      · rw [if_pos hs] at hb
        rcases h with h | ⟨he, _⟩
        · linarith
        · exact hs he.symm
  · rw [if_pos hw] at hb
    have hx : x.watching = false := by
      cases hxw : x.watching
      · rfl
      · rw [hb, hxw] at hw
        exact absurd rfl hw
    rcases h with h | ⟨he, _⟩
    · rw [watchedRank, watchedRank, hb, hx] at h
      norm_num at h
    · rw [watchedRank, watchedRank, hb, hx] at he
      norm_num at he

theorem lexGE_trans (x y z : EntityView) (h1 : lexGE x y) (h2 : lexGE y z) : lexGE x z := by
  unfold lexGE at h1 h2 ⊢
  rcases h1 with h1 | ⟨he1, h1⟩
  · rcases h2 with h2 | ⟨he2, _⟩
    · exact Or.inl (lt_trans h2 h1)
    · exact Or.inl (he2 ▸ h1)
  · rcases h2 with h2 | ⟨he2, h2⟩
    · exact Or.inl (he1 ▸ h2)
    · refine Or.inr ⟨he1.trans he2, ?_⟩
      rcases h1 with h1 | ⟨hs1, h1⟩
      · rcases h2 with h2 | ⟨hs2, _⟩
        · exact Or.inl (lt_trans h2 h1)
        · exact Or.inl (hs2 ▸ h1)
      · rcases h2 with h2 | ⟨hs2, h2⟩
        · exact Or.inl (hs1 ▸ h2)
        · refine Or.inr ⟨hs1.trans hs2, ?_⟩
          rcases h1 with h1 | ⟨hr1, h1⟩
          · rcases h2 with h2 | ⟨hr2, _⟩
            · exact Or.inl (lt_trans h2 h1)
            · exact Or.inl (hr2 ▸ h1)
          · rcases h2 with h2 | ⟨hr2, h2⟩
            · exact Or.inl (hr1 ▸ h2)
            · exact Or.inr ⟨hr1.trans hr2, le_trans h2 h1⟩

theorem snapLE_isTotal : ∀ x y : EntityView, snapLE x y ∨ snapLE y x := by
  intro x y
  by_cases h : snapBefore y x
  · right
    intro hb
    exact snapBefore_asymm y x h hb
  · exact Or.inl h

theorem snapLE_isTrans : ∀ x y z : EntityView, snapLE x y → snapLE y z → snapLE x z := by
  intro x y z h1 h2
  exact not_before_of_lexGE x z
    (lexGE_trans x y z (lexGE_of_not_before x y h1) (lexGE_of_not_before y z h2))

theorem snapshotRows_score_bounds (s : TrackerState) (maxOut ts : Nat) (sr : ℝ) :
    ∀ v ∈ snapshotRows s maxOut ts sr,
      (0 ≤ v.score ∧ v.score ≤ 100) ∧ (v.kind = .WifiAp → v.score = 0) := by
  intro v hv
  unfold snapshotRows at hv
  have hv' := List.mem_of_mem_take hv
  rcases List.mem_append.mp hv' with hmem | hmem
  · obtain ⟨t, _, rfl⟩ := List.mem_map.mp hmem
    refine ⟨⟨score_track_nonneg t s.move_segments sr, score_track_le_100 t s.move_segments sr⟩, ?_⟩
    intro hkind
    exfalso
    cases ht : t.kind <;> simp [trackView, ht] at hkind
  · obtain ⟨a, _, rfl⟩ := List.mem_map.mp hmem
    have hsc : (anchorView a ts).score = 0 := rfl
    exact ⟨⟨by simp [hsc], by simp [hsc]⟩, fun _ => hsc⟩

open Classical in
/-- C2: every array returned by `buildSnapshot` has each row's score in
`[0,100]`, every `WifiAp` row's score exactly 0, and for all positions
`i < j` the tuple `(watched, score, rssi, −index)` of row `i` is
lexicographically ≥ that of row `j`. -/
theorem claim_C2_snapshot_bounds_and_order (s : TrackerState) (maxOut ts : Nat) (sr : ℝ) :
    (∀ v ∈ buildSnapshot s maxOut ts sr,
      (0 ≤ v.score ∧ v.score ≤ 100) ∧ (v.kind = .WifiAp → v.score = 0)) ∧
    ∀ (i j : Fin (buildSnapshot s maxOut ts sr).length), (i : Nat) < (j : Nat) →
      lexGE ((buildSnapshot s maxOut ts sr).get i) ((buildSnapshot s maxOut ts sr).get j) := by
  constructor
  · intro v hv
    have hv' : v ∈ snapshotRows s maxOut ts sr := by
      unfold buildSnapshot at hv
      exact (List.mem_insertionSort snapLE).mp hv
    exact snapshotRows_score_bounds s maxOut ts sr v hv'
  · intro i j hij
    haveI : IsTotal EntityView snapLE := ⟨snapLE_isTotal⟩
    haveI : IsTrans EntityView snapLE := ⟨fun x y z => snapLE_isTrans x y z⟩
    have hsorted : List.Sorted snapLE (buildSnapshot s maxOut ts sr) :=
      List.sorted_insertionSort snapLE (snapshotRows s maxOut ts sr)
    have hle := hsorted.rel_get_of_lt (show i < j from hij)
    exact lexGE_of_not_before _ _ hle

open Classical in
theorem claim_C2_witness :
    ((0 ≤ (anchorView wAnchor 100).score ∧ (anchorView wAnchor 100).score ≤ 100) ∧
      ((anchorView wAnchor 100).kind = .WifiAp → (anchorView wAnchor 100).score = 0)) ∧
    List.Pairwise lexGE (buildSnapshot wState 5 100 0) := by
  have hrows : snapshotRows wState 5 100 0 =
      [trackView wTrack wState.move_segments 0, anchorView wAnchor 100] := rfl
  have hmem : anchorView wAnchor 100 ∈ buildSnapshot wState 5 100 0 := by
    unfold buildSnapshot
    refine (List.mem_insertionSort snapLE).mpr ?_
    rw [hrows]
    simp
  refine ⟨(claim_C2_snapshot_bounds_and_order wState 5 100 0).1 (anchorView wAnchor 100) hmem, ?_⟩
  refine List.pairwise_iff_get.mpr ?_
  intro i j hij
  exact (claim_C2_snapshot_bounds_and_order wState 5 100 0).2 i j hij

/-! ### C9: watchlist load error handling -/

theorem readItem_step_count (ts : Nat) (rs : ReadState) (itv : Option WItem) :
    (readItem ts rs itv).applied + (readItem ts rs itv).skipped =
      rs.applied + rs.skipped + 1 := by
  unfold readItem
  repeat' split
  all_goals try simp_arith
  all_goals split <;> simp_arith

theorem readItems_count (ts : Nat) (items : List (Option WItem)) :
    ∀ rs : ReadState,
      (items.foldl (readItem ts) rs).applied + (items.foldl (readItem ts) rs).skipped =
        rs.applied + rs.skipped + items.length := by
  induction items with
  | nil => intro rs; simp
  | cons it rest ih =>
    intro rs
    have hstep := readItem_step_count ts rs it
    have := ih (readItem ts rs it)
    simp only [List.foldl_cons, List.length_cons]
    omega

/-- C9 (amended): `readWatchlist` returns `false` for an invalid JSON
document and for a valid document lacking an `items` array; within a valid
`items` array every malformed item (non-object, missing or unparsable
kind/MAC) is skipped and counted without touching the tables, and every item
is either applied or skipped; the overall result is `true` iff at least one
item was applied — so a document whose items are all malformed (or empty)
also returns `false`. -/
theorem claim_C9_read_error_handling (s : TrackerState) (ts : Nat) (d : WDoc)
    (items : List (Option WItem)) (rs : ReadState) (itv : Option WItem) :
    readWatchlist none s ts = (s, false) ∧
    readWatchlist (some ⟨none⟩) s ts = (s, false) ∧
    (itemMalformed itv = true →
      readItem ts rs itv = { rs with skipped := rs.skipped + 1 }) ∧
    ((readItems items s ts).applied + (readItems items s ts).skipped = items.length) ∧
    (d.items = some items →
      ((readWatchlist (some d) s ts).2 = true ↔ 0 < (readItems items s ts).applied)) := by
  refine ⟨rfl, rfl, ?_, ?_, ?_⟩
  · intro hmal
    rcases itv with _ | it
    · rfl
    · rcases hk : it.kind with _ | ks
      · simp [readItem, hk]
      · rcases hm : it.mac with _ | ms
        · simp [readItem, hk, hm]
        · rcases hpk : parseKind ks with _ | ek
          · simp [readItem, hk, hm, hpk]
          · rcases hpm : parseMac ms with _ | mac
            · simp [readItem, hk, hm, hpk, hpm]
            · exfalso
              simp [itemMalformed, hk, hm, hpk, hpm] at hmal
  · have := readItems_count ts items ⟨s.tracks, s.anchors, s.next_index, 0, 0⟩
    unfold readItems
    simpa using this
  · intro hitems
    simp [readWatchlist, hitems]

/-- C9 counterexample: a syntactically valid document whose `items` array
holds one malformed item (bad kind, bad MAC).  The item is skipped and
counted, yet the load returns `false` (`applied > 0` fails) — so the claim
that malformed items never make the load fail is false on the code. -/
theorem claim_C9_counterexample :
    (⟨some [some { kind := some (strBytes ("Bogus")), mac := some (strBytes ("AA")) }]⟩ :
        WDoc).items ≠ none ∧
    itemMalformed
      (some { kind := some (strBytes ("Bogus")), mac := some (strBytes ("AA")) }) = true ∧
    (readItems [some { kind := some (strBytes ("Bogus")), mac := some (strBytes ("AA")) }]
        emptyState 0).skipped = 1 ∧
    (readWatchlist
        (some ⟨some [some { kind := some (strBytes ("Bogus")), mac := some (strBytes ("AA")) }]⟩)
        emptyState 0).2 = false := by
  refine ⟨by simp, ?_, ?_, ?_⟩
  · rfl
  · rfl
  · rfl

theorem claim_C9_witness :
    readWatchlist none emptyState 0 = (emptyState, false) ∧
    readItem 0 ⟨[], [], 1, 0, 0⟩ none = ⟨[], [], 1, 0, 1⟩ := by
  have h := claim_C9_read_error_handling emptyState 0 ⟨none⟩ [] ⟨[], [], 1, 0, 0⟩ none
  exact ⟨h.1, h.2.2.1 rfl⟩

/-! ### C8: watchlist round trip -/

theorem hexNibble_hexDigitUpper (n : Nat) (h : n < 16) :
    hexNibble (hexDigitUpper n) = some n := by
  interval_cases n <;> decide

theorem parseMac_macToString (m : List Nat) (hlen : m.length = 6)
    (hbytes : ∀ b ∈ m, b < 256) :
    parseMac (macToString m) = some m := by
  rcases m with _ | ⟨b0, _ | ⟨b1, _ | ⟨b2, _ | ⟨b3, _ | ⟨b4, _ | ⟨b5, _ | ⟨b6, rest⟩⟩⟩⟩⟩⟩⟩ <;>
    simp at hlen
  have h0 : b0 < 256 := hbytes b0 (by simp)
  have h1 : b1 < 256 := hbytes b1 (by simp)
  have h2 : b2 < 256 := hbytes b2 (by simp)
  have h3 : b3 < 256 := hbytes b3 (by simp)
  have h4 : b4 < 256 := hbytes b4 (by simp)
  have h5 : b5 < 256 := hbytes b5 (by simp)
  have e0 := hexNibble_hexDigitUpper (b0 / 16) (by omega)
  have e0' := hexNibble_hexDigitUpper (b0 % 16) (by omega)
  have e1 := hexNibble_hexDigitUpper (b1 / 16) (by omega)
  have e1' := hexNibble_hexDigitUpper (b1 % 16) (by omega)
  have e2 := hexNibble_hexDigitUpper (b2 / 16) (by omega)
  have e2' := hexNibble_hexDigitUpper (b2 % 16) (by omega)
  have e3 := hexNibble_hexDigitUpper (b3 / 16) (by omega)
  have e3' := hexNibble_hexDigitUpper (b3 % 16) (by omega)
  have e4 := hexNibble_hexDigitUpper (b4 / 16) (by omega)
  have e4' := hexNibble_hexDigitUpper (b4 % 16) (by omega)
  have e5 := hexNibble_hexDigitUpper (b5 / 16) (by omega)
  have e5' := hexNibble_hexDigitUpper (b5 % 16) (by omega)
  simp only [macToString, parseMac, parseMacByte, macSepOk, sGet, List.getD]
  norm_num [e0, e0', e1, e1', e2, e2', e3, e3', e4, e4', e5, e5']
  omega

theorem macToString_length (m : List Nat) (hlen : m.length = 6) :
    (macToString m).length = 17 := by
  rcases m with _ | ⟨b0, _ | ⟨b1, _ | ⟨b2, _ | ⟨b3, _ | ⟨b4, _ | ⟨b5, _ | ⟨b6, rest⟩⟩⟩⟩⟩⟩⟩ <;>
    simp at hlen
  rfl

theorem printDouble8_key (y : ℝ) :
    |y - ((⌊y * 10 ^ 8 + 1 / 2⌋ : ℤ) : ℝ) / 10 ^ 8| ≤ 1 / 10 ^ 7 := by
  have h8 : (0 : ℝ) < 10 ^ 8 := by norm_num
  have hF1 : ((⌊y * 10 ^ 8 + 1 / 2⌋ : ℤ) : ℝ) ≤ y * 10 ^ 8 + 1 / 2 :=
    Int.floor_le _
  have hF2 : y * 10 ^ 8 + 1 / 2 < ((⌊y * 10 ^ 8 + 1 / 2⌋ : ℤ) : ℝ) + 1 :=
    Int.lt_floor_add_one _
  have heq : y - ((⌊y * 10 ^ 8 + 1 / 2⌋ : ℤ) : ℝ) / 10 ^ 8 =
      (y * 10 ^ 8 - ((⌊y * 10 ^ 8 + 1 / 2⌋ : ℤ) : ℝ)) / 10 ^ 8 := by
    field_simp
  rw [heq, abs_div, abs_of_pos h8, div_le_iff₀ h8]
  have habs : |y * 10 ^ 8 - ((⌊y * 10 ^ 8 + 1 / 2⌋ : ℤ) : ℝ)| ≤ 1 / 2 :=
    abs_le.mpr ⟨by linarith, by linarith⟩
  have : (1 : ℝ) / 10 ^ 7 * 10 ^ 8 = 10 := by norm_num
  rw [this]
  linarith

/-- Printing a double with 8 fractional digits moves it by at most 1e−7. -/
theorem printDouble8_close (x : ℝ) : |x - printDouble8 x| ≤ 1 / 10 ^ 7 := by
  unfold printDouble8
  by_cases hx : x < 0
  · rw [if_pos hx]
    have hkey := printDouble8_key (-x)
    have heq : x - -(((⌊-x * 10 ^ 8 + 1 / 2⌋ : ℤ) : ℝ) / 10 ^ 8) =
        -((-x) - ((⌊-x * 10 ^ 8 + 1 / 2⌋ : ℤ) : ℝ) / 10 ^ 8) := by ring
    rw [heq, abs_neg]
    exact hkey
  · rw [if_neg hx]
    exact printDouble8_key x

theorem modifyAt_getElem?_ne {α : Type} (l : List α) (i j : Nat) (f : α → α)
    (h : i ≠ j) : (modifyAt l i f)[j]? = l[j]? := by
  unfold modifyAt
  cases h' : l[i]? with
  | none => rfl
  | some x => exact List.getElem?_set_ne h

theorem modifyAt_getElem?_eq {α : Type} (l : List α) (i : Nat) (f : α → α)
    (x : α) (h : l[i]? = some x) : (modifyAt l i f)[i]? = some (f x) := by
  unfold modifyAt
  rw [h]
  have hlt : i < l.length := by
    rcases List.getElem?_eq_some.mp h with ⟨hlt, _⟩
    exact hlt
  rw [List.getElem?_set_eq_of_lt _ hlt]

theorem applyTrackItem_fields (t : Track) (it : WItem) :
    (applyTrackItem t it).in_use = t.in_use ∧ (applyTrackItem t it).watching = true ∧
    (applyTrackItem t it).kind = t.kind ∧ (applyTrackItem t it).addr = t.addr ∧
    (applyTrackItem t it).has_geo = t.has_geo ∧
    (applyTrackItem t it).last_lat = t.last_lat ∧
    (applyTrackItem t it).last_lon = t.last_lon := by
  unfold applyTrackItem
  repeat' split
  all_goals simp

theorem applyAnchorItem_fields (a : Anchor) (it : WItem) :
    (applyAnchorItem a it).in_use = a.in_use ∧ (applyAnchorItem a it).watching = true ∧
    (applyAnchorItem a it).addr = a.addr := by
  unfold applyAnchorItem
  repeat' split
  all_goals simp

theorem applyAnchorItem_geo_some (a : Anchor) (it : WItem) (la lo : ℝ)
    (hla : it.lat = some la) (hlo : it.lon = some lo) :
    (applyAnchorItem a it).has_geo = true ∧
    anchorGeo (applyAnchorItem a it) = (la, lo) := by
  unfold applyAnchorItem
  rw [hla, hlo]
  dsimp only
  have hgeo : ∀ a2 : Anchor, anchorGeo { a2 with best_lat := la, best_lon := lo, best_rssi := -127, w_sum := 0, w_lat := 0, w_lon := 0, has_geo := true } = (la, lo) := by
    intro a2
    unfold anchorGeo
    rw [if_neg (by norm_num)]
  repeat' split
  all_goals exact ⟨rfl, hgeo _⟩

theorem applyAnchorItem_geo_none (a : Anchor) (it : WItem)
    (h : it.lat = none ∨ it.lon = none) :
    (applyAnchorItem a it).has_geo = a.has_geo ∧
    anchorGeo (applyAnchorItem a it) = anchorGeo a := by
  unfold applyAnchorItem
  have hgeo : ∀ ss : List Nat, anchorGeo { a with watching := true, ssid := ss } = anchorGeo a := by
    intro ss
    unfold anchorGeo
    rfl
  rcases h with h | h
  · rw [h]
    dsimp only
    repeat' split
    all_goals exact ⟨rfl, hgeo _⟩
  · cases hlat : it.lat with
    | none =>
      rw [h]
      dsimp only
      repeat' split
      all_goals exact ⟨rfl, hgeo _⟩
    | some la =>
      rw [h]
      dsimp only
      repeat' split
      all_goals exact ⟨rfl, hgeo _⟩

theorem trackSlotInv_apply (t c : Track) (it : WItem)
    (hinv : trackSlotInv t c) : trackSlotInv t (applyTrackItem c it) := by
  obtain ⟨hcu, hcw, hck, hca, hcg, hclat, hclon⟩ := hinv
  obtain ⟨f1, f2, f3, f4, f5, f6, f7⟩ := applyTrackItem_fields c it
  exact ⟨by rw [f1, hcu], f2, by rw [f3, hck], by rw [f4, hca],
    by rw [f5, hcg], by rw [f6, hclat], by rw [f7, hclon]⟩

theorem readItem_track_slot (ts : Nat) (rs : ReadState) (itv : Option WItem)
    (i : Nat) (t c : Track) (hc : rs.tracks[i]? = some c) (hinv : trackSlotInv t c) :
    ∃ c', (readItem ts rs itv).tracks[i]? = some c' ∧ trackSlotInv t c' := by
  have hcu : c.in_use = true := hinv.1
  rcases itv with _ | it
  · exact ⟨c, by simp [readItem, hc], hinv⟩
  · rcases hk : it.kind with _ | ks
    · exact ⟨c, by simp [readItem, hk, hc], hinv⟩
    · rcases hm : it.mac with _ | ms
      · exact ⟨c, by simp [readItem, hk, hm, hc], hinv⟩
      · rcases hpk : parseKind ks with _ | ek
        · exact ⟨c, by simp [readItem, hk, hm, hpk, hc], hinv⟩
        · rcases hpm : parseMac ms with _ | mac
          · exact ⟨c, by simp [readItem, hk, hm, hpk, hpm, hc], hinv⟩
          · cases ek with
            | WifiAp =>
              have hred : (readItem ts rs (some it)).tracks = rs.tracks := by
                rcases hfa : firstIdx (anchorMatches mac) rs.anchors with _ | j
                · rcases hff : firstIdx (fun a => !a.in_use) rs.anchors with _ | j
                  · simp [readItem, hk, hm, hpk, hpm, hfa, hff]
                  · simp [readItem, hk, hm, hpk, hpm, hfa, hff]
                · simp [readItem, hk, hm, hpk, hpm, hfa]
              exact ⟨c, by rw [hred]; exact hc, hinv⟩
            | BleAdv =>
              rcases hft : firstIdx (trackMatches TrackKind.BleAdv mac) rs.tracks with _ | j
              · rcases hff : firstIdx (fun u => !u.in_use) rs.tracks with _ | j
                · have hred : (readItem ts rs (some it)).tracks = rs.tracks := by
                    simp [readItem, hk, hm, hpk, hpm, hft, hff]
                  exact ⟨c, by rw [hred]; exact hc, hinv⟩
                · have hred : (readItem ts rs (some it)).tracks =
                      rs.tracks.set j (applyTrackItem
                        (newTrackFromItem TrackKind.BleAdv mac it ts rs.next_index) it) := by
                    simp [readItem, hk, hm, hpk, hpm, hft, hff]
                  have hji : j ≠ i := by
                    intro hji
                    subst hji
                    obtain ⟨u, hu, hpu⟩ := firstIdx_some _ _ _ hff
                    rw [hc] at hu
                    cases hu
                    rw [hcu] at hpu
                    simp at hpu
                  refine ⟨c, ?_, hinv⟩
                  rw [hred, List.getElem?_set_ne hji]
                  exact hc
              · by_cases hji : j = i
                · subst hji
                  have hred : (readItem ts rs (some it)).tracks =
                      modifyAt rs.tracks j (fun u => applyTrackItem u it) := by
                    simp [readItem, hk, hm, hpk, hpm, hft]
                  refine ⟨applyTrackItem c it, ?_, trackSlotInv_apply t c it hinv⟩
                  rw [hred]
                  exact modifyAt_getElem?_eq rs.tracks j _ c hc
                · have hred : (readItem ts rs (some it)).tracks =
                      modifyAt rs.tracks j (fun u => applyTrackItem u it) := by
                    simp [readItem, hk, hm, hpk, hpm, hft]
                  refine ⟨c, ?_, hinv⟩
                  rw [hred, modifyAt_getElem?_ne rs.tracks j i _ hji]
                  exact hc
            | WifiClient =>
              rcases hft : firstIdx (trackMatches TrackKind.WifiClient mac) rs.tracks with _ | j
              · rcases hff : firstIdx (fun u => !u.in_use) rs.tracks with _ | j
                · have hred : (readItem ts rs (some it)).tracks = rs.tracks := by
                    simp [readItem, hk, hm, hpk, hpm, hft, hff]
                  exact ⟨c, by rw [hred]; exact hc, hinv⟩
                · have hred : (readItem ts rs (some it)).tracks =
                      rs.tracks.set j (applyTrackItem
                        (newTrackFromItem TrackKind.WifiClient mac it ts rs.next_index) it) := by
                    simp [readItem, hk, hm, hpk, hpm, hft, hff]
                  have hji : j ≠ i := by
                    intro hji
                    subst hji
                    obtain ⟨u, hu, hpu⟩ := firstIdx_some _ _ _ hff
                    rw [hc] at hu
                    cases hu
                    rw [hcu] at hpu
                    simp at hpu
                  refine ⟨c, ?_, hinv⟩
                  rw [hred, List.getElem?_set_ne hji]
                  exact hc
              · by_cases hji : j = i
                · subst hji
                  have hred : (readItem ts rs (some it)).tracks =
                      modifyAt rs.tracks j (fun u => applyTrackItem u it) := by
                    simp [readItem, hk, hm, hpk, hpm, hft]
                  refine ⟨applyTrackItem c it, ?_, trackSlotInv_apply t c it hinv⟩
                  rw [hred]
                  exact modifyAt_getElem?_eq rs.tracks j _ c hc
                · have hred : (readItem ts rs (some it)).tracks =
                      modifyAt rs.tracks j (fun u => applyTrackItem u it) := by
                    simp [readItem, hk, hm, hpk, hpm, hft]
                  refine ⟨c, ?_, hinv⟩
                  rw [hred, modifyAt_getElem?_ne rs.tracks j i _ hji]
                  exact hc

theorem anchorSlotInv_apply (a c : Anchor) (it : WItem)
    (hinv : anchorSlotInv a c) (hgeoit : a.has_geo = true →
      it.lat = some (printDouble8 (anchorGeo a).1) ∧
      it.lon = some (printDouble8 (anchorGeo a).2)) :
    anchorSlotInv a (applyAnchorItem c it) := by
  obtain ⟨hcu, hcw, hca, hcg⟩ := hinv
  obtain ⟨f1, f2, f3⟩ := applyAnchorItem_fields c it
  refine ⟨by rw [f1, hcu], f2, by rw [f3, hca], ?_⟩
  intro hag
  obtain ⟨hla, hlo⟩ := hgeoit hag
  obtain ⟨g1, g2⟩ := applyAnchorItem_geo_some c it _ _ hla hlo
  exact ⟨g1, Or.inr g2⟩

theorem readItem_anchor_slot (ts : Nat) (rs : ReadState) (itv : Option WItem)
    (i : Nat) (a c : Anchor) (hc : rs.anchors[i]? = some c) (hinv : anchorSlotInv a c)
    (hgood : ∀ it, itv = some it → anchorItemGeoOK a it) :
    ∃ c', (readItem ts rs itv).anchors[i]? = some c' ∧ anchorSlotInv a c' := by
  have hcu : c.in_use = true := hinv.1
  have hca : c.addr = a.addr := hinv.2.2.1
  rcases itv with _ | it
  · exact ⟨c, by simp [readItem, hc], hinv⟩
  · rcases hk : it.kind with _ | ks
    · exact ⟨c, by simp [readItem, hk, hc], hinv⟩
    · rcases hm : it.mac with _ | ms
      · exact ⟨c, by simp [readItem, hk, hm, hc], hinv⟩
      · rcases hpk : parseKind ks with _ | ek
        · exact ⟨c, by simp [readItem, hk, hm, hpk, hc], hinv⟩
        · rcases hpm : parseMac ms with _ | mac
          · exact ⟨c, by simp [readItem, hk, hm, hpk, hpm, hc], hinv⟩
          · cases ek with
            | BleAdv =>
              have hred : (readItem ts rs (some it)).anchors = rs.anchors := by
                rcases hft : firstIdx (trackMatches TrackKind.BleAdv mac) rs.tracks with _ | j
                · rcases hff : firstIdx (fun u => !u.in_use) rs.tracks with _ | j
                  · simp [readItem, hk, hm, hpk, hpm, hft, hff]
                  · simp [readItem, hk, hm, hpk, hpm, hft, hff]
                · simp [readItem, hk, hm, hpk, hpm, hft]
              exact ⟨c, by rw [hred]; exact hc, hinv⟩
            | WifiClient =>
              have hred : (readItem ts rs (some it)).anchors = rs.anchors := by
                rcases hft : firstIdx (trackMatches TrackKind.WifiClient mac) rs.tracks with _ | j
                · rcases hff : firstIdx (fun u => !u.in_use) rs.tracks with _ | j
                  · simp [readItem, hk, hm, hpk, hpm, hft, hff]
                  · simp [readItem, hk, hm, hpk, hpm, hft, hff]
                · simp [readItem, hk, hm, hpk, hpm, hft]
              exact ⟨c, by rw [hred]; exact hc, hinv⟩
            | WifiAp =>
              rcases hfa : firstIdx (anchorMatches mac) rs.anchors with _ | j
              · rcases hff : firstIdx (fun u => !u.in_use) rs.anchors with _ | j
                · have hred : (readItem ts rs (some it)).anchors = rs.anchors := by
                    simp [readItem, hk, hm, hpk, hpm, hfa, hff]
                  exact ⟨c, by rw [hred]; exact hc, hinv⟩
                · have hred : (readItem ts rs (some it)).anchors =
                      rs.anchors.set j (applyAnchorItem
                        (newAnchorFromItem mac ts rs.next_index) it) := by
                    simp [readItem, hk, hm, hpk, hpm, hfa, hff]
                  have hji : j ≠ i := by
                    intro hji
                    subst hji
                    obtain ⟨u, hu, hpu⟩ := firstIdx_some _ _ _ hff
                    rw [hc] at hu
                    cases hu
                    rw [hcu] at hpu
                    simp at hpu
                  refine ⟨c, ?_, hinv⟩
                  rw [hred, List.getElem?_set_ne hji]
                  exact hc
              · have hred : (readItem ts rs (some it)).anchors =
                    modifyAt rs.anchors j (fun u => applyAnchorItem u it) := by
                  simp [readItem, hk, hm, hpk, hpm, hfa]
                by_cases hji : j = i
                · subst hji
                  obtain ⟨u, hu, hpu⟩ := firstIdx_some _ _ _ hfa
                  rw [hc] at hu
                  cases hu
                  have hmac : mac = a.addr := by
                    obtain ⟨_, haddr⟩ := (anchorMatches_true_iff mac c).mp hpu
                    rw [← haddr, hca]
                  have hgeoit := hgood it rfl ks ms mac hk hm hpk hpm hmac
                  refine ⟨applyAnchorItem c it, ?_, anchorSlotInv_apply a c it hinv hgeoit⟩
                  rw [hred]
                  exact modifyAt_getElem?_eq rs.anchors j _ c hc
                · refine ⟨c, ?_, hinv⟩
                  rw [hred, modifyAt_getElem?_ne rs.anchors j i _ hji]
                  exact hc

theorem readItems_track_slot (ts : Nat) (items : List (Option WItem)) (rs : ReadState)
    (i : Nat) (t c : Track) (hc : rs.tracks[i]? = some c) (hinv : trackSlotInv t c) :
    ∃ c', (items.foldl (readItem ts) rs).tracks[i]? = some c' ∧ trackSlotInv t c' := by
  induction items generalizing rs c with
  | nil => exact ⟨c, hc, hinv⟩
  | cons itv rest ih =>
    obtain ⟨c1, hc1, hinv1⟩ := readItem_track_slot ts rs itv i t c hc hinv
    simp only [List.foldl_cons]
    exact ih (readItem ts rs itv) c1 hc1 hinv1

theorem readItems_anchor_slot (ts : Nat) (items : List (Option WItem)) (rs : ReadState)
    (i : Nat) (a c : Anchor) (hc : rs.anchors[i]? = some c) (hinv : anchorSlotInv a c)
    (hgood : ∀ itv ∈ items, ∀ it, itv = some it → anchorItemGeoOK a it) :
    ∃ c', (items.foldl (readItem ts) rs).anchors[i]? = some c' ∧ anchorSlotInv a c' := by
  induction items generalizing rs c with
  | nil => exact ⟨c, hc, hinv⟩
  | cons itv rest ih =>
    obtain ⟨c1, hc1, hinv1⟩ := readItem_anchor_slot ts rs itv i a c hc hinv
      (fun it hit => hgood itv (List.mem_cons_self itv rest) it hit)
    simp only [List.foldl_cons]
    exact ih (readItem ts rs itv) c1 hc1 hinv1
      (fun itv' hm it hit => hgood itv' (List.mem_cons_of_mem _ hm) it hit)

theorem reset_tracks_watched (s : TrackerState) (i : Nat) (t : Track)
    (hc : s.tracks[i]? = some t) (hu : t.in_use = true) (hw : t.watching = true) :
    (reset s).tracks[i]? = some t := by
  simp [reset, List.getElem?_map, hc, hu, hw]

theorem reset_anchors_watched (s : TrackerState) (i : Nat) (a : Anchor)
    (hc : s.anchors[i]? = some a) (hu : a.in_use = true) (hw : a.watching = true) :
    (reset s).anchors[i]? = some a := by
  simp [reset, List.getElem?_map, hc, hu, hw]

theorem readWatchlist_items_tracks (items : List (Option WItem)) (s0 : TrackerState)
    (ts : Nat) :
    (readWatchlist (some ⟨some items⟩) s0 ts).1.tracks =
      (items.foldl (readItem ts) ⟨s0.tracks, s0.anchors, s0.next_index, 0, 0⟩).tracks := rfl

theorem readWatchlist_items_anchors (items : List (Option WItem)) (s0 : TrackerState)
    (ts : Nat) :
    (readWatchlist (some ⟨some items⟩) s0 ts).1.anchors =
      (items.foldl (readItem ts) ⟨s0.tracks, s0.anchors, s0.next_index, 0, 0⟩).anchors := rfl

theorem writeWatchlist_geoOK (s : TrackerState) (a : Anchor)
    (ha : a ∈ s.anchors) (hau : a.in_use = true)
    (huA : ∀ x ∈ s.anchors, ∀ y ∈ s.anchors,
      x.in_use = true → y.in_use = true → x.addr = y.addr → x = y)
    (hbA : ∀ x ∈ s.anchors, x.in_use = true →
      x.addr.length = 6 ∧ ∀ b ∈ x.addr, b < 256) :
    ∀ itv ∈ (writeWatchlist s).map some, ∀ it, itv = some it → anchorItemGeoOK a it := by
  intro itv hitv it hit
  rcases List.mem_map.mp hitv with ⟨it0, hit0, heq⟩
  rw [hit] at heq
  have hi0 : it0 = it := Option.some.inj heq
  subst hi0
  rcases List.mem_append.mp hit0 with hA | hB
  · rcases List.mem_map.mp hA with ⟨b, hbmem, hbw⟩
    rcases List.mem_filter.mp hbmem with ⟨hbs, hbp⟩
    simp only [Bool.and_eq_true, decide_eq_true_eq] at hbp
    obtain ⟨⟨hbu, _⟩, _⟩ := hbp
    intro ks ms mac hk hm hpk hpm hmac hag
    subst hbw
    have hm' : macToString b.addr = ms := by
      simpa [writeAnchorItem] using hm
    obtain ⟨hbl, hbb⟩ := hbA b hbs hbu
    have hpm' : parseMac ms = some b.addr := by
      rw [← hm']
      exact parseMac_macToString b.addr hbl hbb
    have hmb : mac = b.addr := by
      rw [hpm] at hpm'
      exact Option.some.inj hpm'
    have hba : b = a := huA b hbs a ha hbu hau (by rw [← hmb, hmac])
    subst hba
    constructor
    · simp [writeAnchorItem, hag]
    · simp [writeAnchorItem, hag]
  · rcases List.mem_map.mp hB with ⟨u, humem, huw⟩
    intro ks ms mac hk hm hpk hpm hmac hag
    subst huw
    have hk' : (if u.kind = TrackKind.BleAdv then strBleAdv else strWifiClient) = ks := by
      simpa [writeTrackItem] using hk
    by_cases hbk : u.kind = TrackKind.BleAdv
    · rw [if_pos hbk] at hk'
      rw [← hk'] at hpk
      exact absurd hpk (by decide)
    · rw [if_neg hbk] at hk'
      rw [← hk'] at hpk
      exact absurd hpk (by decide)

/-- C8: after exporting the watchlist with `writeWatchlist`, clearing the
tables with `reset` and importing the document with `readWatchlist`, every
previously Watching in-use slot is still present at its index, in use and
Watching, with the same kind and address, and — when it carried geo — with
coordinates within 1e-7 of the exported (8-decimal-rounded) values. Proved
under the C representation invariants that in-use anchor addresses are
6 bytes below 256 and that distinct in-use anchor slots have distinct
addresses. -/
theorem claim_C8_watchlist_roundtrip (s : TrackerState) (ts : Nat)
    (huA : ∀ x ∈ s.anchors, ∀ y ∈ s.anchors,
      x.in_use = true → y.in_use = true → x.addr = y.addr → x = y)
    (hbA : ∀ x ∈ s.anchors, x.in_use = true →
      x.addr.length = 6 ∧ ∀ b ∈ x.addr, b < 256) :
    (∀ (i : Nat) (t : Track), s.tracks[i]? = some t → t.in_use = true → t.watching = true →
      ∃ t' : Track, (readWatchlist (some ⟨some ((writeWatchlist s).map some)⟩)
          (reset s) ts).1.tracks[i]? = some t' ∧
        t'.in_use = true ∧ t'.watching = true ∧ t'.kind = t.kind ∧ t'.addr = t.addr ∧
        (t.has_geo = true → t'.has_geo = true ∧
          |t'.last_lat - printDouble8 t.last_lat| ≤ 1 / 10 ^ 7 ∧
          |t'.last_lon - printDouble8 t.last_lon| ≤ 1 / 10 ^ 7)) ∧
    (∀ (i : Nat) (a : Anchor), s.anchors[i]? = some a → a.in_use = true → a.watching = true →
      ∃ a' : Anchor, (readWatchlist (some ⟨some ((writeWatchlist s).map some)⟩)
          (reset s) ts).1.anchors[i]? = some a' ∧
        a'.in_use = true ∧ a'.watching = true ∧ a'.addr = a.addr ∧
        (a.has_geo = true → a'.has_geo = true ∧
          |(anchorGeo a').1 - printDouble8 (anchorGeo a).1| ≤ 1 / 10 ^ 7 ∧
          |(anchorGeo a').2 - printDouble8 (anchorGeo a).2| ≤ 1 / 10 ^ 7)) := by
  constructor
  · intro i t hc hu hw
    have h0 : (reset s).tracks[i]? = some t := reset_tracks_watched s i t hc hu hw
    have hinv0 : trackSlotInv t t := ⟨hu, hw, rfl, rfl, rfl, rfl, rfl⟩
    obtain ⟨c', hc', hinv'⟩ := readItems_track_slot ts ((writeWatchlist s).map some)
      ⟨(reset s).tracks, (reset s).anchors, (reset s).next_index, 0, 0⟩ i t t h0 hinv0
    obtain ⟨h1, h2, h3, h4, hgeo, hla, hlo⟩ := hinv'
    refine ⟨c', ?_, h1, h2, h3, h4, ?_⟩
    · rw [readWatchlist_items_tracks]
      exact hc'
    · intro hg
      refine ⟨by rw [hgeo]; exact hg, ?_, ?_⟩
      · rw [hla]
        exact printDouble8_close t.last_lat
      · rw [hlo]
        exact printDouble8_close t.last_lon
  · intro i a hc hu hw
    have ha : a ∈ s.anchors := List.getElem?_mem hc
    have h0 : (reset s).anchors[i]? = some a := reset_anchors_watched s i a hc hu hw
    have hinv0 : anchorSlotInv a a := ⟨hu, hw, rfl, fun hg => ⟨hg, Or.inl rfl⟩⟩
    have hgood := writeWatchlist_geoOK s a ha hu huA hbA
    obtain ⟨c', hc', hinv'⟩ := readItems_anchor_slot ts ((writeWatchlist s).map some)
      ⟨(reset s).tracks, (reset s).anchors, (reset s).next_index, 0, 0⟩ i a a h0 hinv0 hgood
    obtain ⟨h1, h2, h3, hgc⟩ := hinv'
    refine ⟨c', ?_, h1, h2, h3, ?_⟩
    · rw [readWatchlist_items_anchors]
      exact hc'
    · intro hg
      rcases hgc hg with ⟨hcg, heq | heq⟩
      · refine ⟨hcg, ?_, ?_⟩
        · rw [heq]
          exact printDouble8_close _
        · rw [heq]
          exact printDouble8_close _
      · refine ⟨hcg, ?_, ?_⟩
        · rw [heq]
          norm_num
        · rw [heq]
          norm_num

/-- Witness for C8 at the one-watched-track, one-watched-anchor state. -/
theorem claim_C8_witness :
    ∃ a' : Anchor, (readWatchlist (some ⟨some ((writeWatchlist wState).map some)⟩)
        (reset wState) 0).1.anchors[0]? = some a' ∧
      a'.in_use = true ∧ a'.watching = true ∧ a'.addr = wAnchor.addr ∧
      (wAnchor.has_geo = true → a'.has_geo = true ∧
        |(anchorGeo a').1 - printDouble8 (anchorGeo wAnchor).1| ≤ 1 / 10 ^ 7 ∧
        |(anchorGeo a').2 - printDouble8 (anchorGeo wAnchor).2| ≤ 1 / 10 ^ 7) := by
  have h := claim_C8_watchlist_roundtrip wState 0
    (by
      intro x hx y hy _ _ _
      simp [wState, emptyState] at hx hy
      rw [hx, hy])
    (by
      intro x hx _
      simp [wState, emptyState] at hx
      rw [hx]
      exact ⟨by decide, by decide⟩)
  exact h.2 0 wAnchor rfl rfl rfl

end Pigtail
